import Mathlib

/-!
Verification of the EduMetrics analytics core (backend/core: stats.py, risk.py,
gaps.py, insights.py, kenya_grading.py) against its specification.

Modelling conventions (shallow embedding):

* Python/numpy floats are modelled by `PyF`: a finite rational, NaN, +inf or
  -inf.  `round(x, n)` is modelled as exact rational rounding half-to-even
  (Python's rounding mode) — the binary-representation artefacts of IEEE
  doubles are outside the model.
* A pandas DataFrame is modelled by `Table`: a list of `Row`s (one row per
  record) plus one flag per logical column saying whether that column exists
  in the frame.  A cell value of `none` models a missing value / NaN / a value
  that fails numeric coercion (`pd.to_numeric(errors="coerce")`).  The
  `percentage` column is the one produced by `_ensure_percentage`; the
  score/max_score derivation itself is ingestion-side and not re-modelled.
* Column-alias resolution (`_find_col`) reduces, on this model, to the
  presence flags: e.g. the student column is the `student_id` column when
  present, else the `name` column, mirroring the alias preference lists.
* Calls into external libraries whose values are irrational or defined by
  special functions (np.sqrt, scipy t-test / ANOVA / pearson p-values) are
  modelled by an `Oracles` parameter; every theorem quantifies over it, and
  all purely rational arithmetic (means, variances, slopes, effect sizes,
  eta-squared, thresholds) is computed exactly.
* Python's stable `sorted` / `list.sort` is modelled by `List.insertionSort`
  (also a stable sort; a stable sort by a total preorder is unique).
* pandas `groupby` iterates groups in ascending key order and skips null
  keys; `Series.unique` preserves first-appearance order; both are modelled
  explicitly.
-/

/-- A Python / numpy double: finite rational, NaN, or a signed infinity. -/
inductive PyF where
  | fin (q : ℚ)
  | nan
  | pinf
  | ninf
deriving DecidableEq, Repr

/-- Is this float finite? -/
def PyF.isFin : PyF → Bool
  | .fin _ => true
  | _ => false

/-- Python `x < c` for a float `x` and finite `c` (NaN compares false). -/
def PyF.ltC : PyF → ℚ → Bool
  | .fin q, c => q < c
  | .ninf, _ => true
  | _, _ => false

/-- Python `x > c` for a float `x` and finite `c` (NaN compares false). -/
def PyF.gtC : PyF → ℚ → Bool
  | .fin q, c => c < q
  | .pinf, _ => true
  | _, _ => false

/-- IEEE addition on the model. -/
def PyF.add : PyF → PyF → PyF
  | .fin a, .fin b => .fin (a + b)
  | .nan, _ => .nan
  | _, .nan => .nan
  | .pinf, .ninf => .nan
  | .ninf, .pinf => .nan
  | .pinf, _ => .pinf
  | _, .pinf => .pinf
  | .ninf, _ => .ninf
  | _, .ninf => .ninf

/-- IEEE multiplication by a finite constant. -/
def PyF.scale (c : ℚ) : PyF → PyF
  | .fin q => .fin (c * q)
  | .nan => .nan
  | .pinf => if 0 < c then .pinf else if c < 0 then .ninf else .nan
  | .ninf => if 0 < c then .ninf else if c < 0 then .pinf else .nan

/-- Python `min(x, c)` with a finite second argument: `min` returns the first
argument unless the second compares strictly smaller, so `min(nan, c) = nan`. -/
def PyF.minC : PyF → ℚ → PyF
  | .fin q, c => .fin (min q c)
  | .nan, _ => .nan
  | .pinf, c => .fin c
  | .ninf, _ => .ninf

/-- numpy float division of finite operands (`0/0 = nan`, `x/0 = ±inf`). -/
def pyDiv (a b : ℚ) : PyF :=
  if b ≠ 0 then .fin (a / b)
  else if 0 < a then .pinf
  else if a < 0 then .ninf
  else .nan

/-- Round half to even to an integer (Python's rounding mode). -/
def roundHE (x : ℚ) : ℤ :=
  let f := ⌊x⌋
  let r := x - f
  if r < 1/2 then f
  else if 1/2 < r then f + 1
  else if f % 2 = 0 then f else f + 1

/-- Python `round(x, n)` on the rational model. -/
def roundTo (n : ℕ) (x : ℚ) : ℚ :=
  (roundHE (x * 10 ^ n) : ℚ) / 10 ^ n

/-- `round(x, n)` lifted to floats (non-finite values round to themselves). -/
def pfRound (n : ℕ) : PyF → PyF
  | .fin q => .fin (roundTo n q)
  | x => x

/-- Mean of a list of rationals (the caller guarantees non-emptiness). -/
def qMean (l : List ℚ) : ℚ := l.sum / l.length

/-- pandas `Series.mean()` over the non-null values: NaN on an empty series. -/
def pfMean (l : List ℚ) : PyF :=
  if l.isEmpty then .nan else .fin (qMean l)

/-- Sample variance (`ddof=1`), as used by `Series.std`/`np.var(·, ddof=1)`;
NaN for fewer than two values. -/
def pfVar (l : List ℚ) : PyF :=
  if l.length ≤ 1 then .nan
  else .fin ((l.map (fun x => (x - qMean l) ^ 2)).sum / (l.length - 1 : ℕ))

/-- Sum of squared deviations from a given value. -/
def sqDevSum (m : ℚ) (l : List ℚ) : ℚ := (l.map (fun x => (x - m) ^ 2)).sum

/-- Exact sample variance for lists of length ≥ 2. -/
def qVar (l : List ℚ) : ℚ := sqDevSum (qMean l) l / (l.length - 1 : ℕ)

/-- `_safe_float` of stats.py / risk.py: None on NaN/inf, else round to 2 dp. -/
def safeFloat2 : PyF → Option PyF
  | .fin q => some (.fin (roundTo 2 q))
  | _ => none

/-- `_safe_float` of gaps.py: None on NaN/inf, else round to 4 dp. -/
def safeFloat4 : PyF → Option PyF
  | .fin q => some (.fin (roundTo 4 q))
  | _ => none

/-- `_sanitize` on one nullable float slot: non-finite floats become null. -/
def sanOpt : Option PyF → Option PyF
  | some (.fin q) => some (.fin q)
  | _ => none

/-- `_safe_float` of insights.py: 0.0 on NaN/inf/None, else round to 2 dp. -/
def insSafe : Option PyF → ℚ
  | some (.fin q) => roundTo 2 q
  | _ => 0

/-- First-appearance-order deduplication, seen-set accumulator version
(structural recursion so that the kernel can evaluate it). -/
def uniqAux {α : Type} [DecidableEq α] : List α → List α → List α
  | _, [] => []
  | seen, a :: as =>
    if a ∈ seen then uniqAux seen as else a :: uniqAux (a :: seen) as

/-- First-appearance-order deduplication (pandas `Series.unique`). -/
def uniq {α : Type} [DecidableEq α] (l : List α) : List α := uniqAux [] l

/-- Python `str.strip()`: drop leading and trailing whitespace. -/
def pyStrip (s : String) : String :=
  ⟨((s.data.dropWhile Char.isWhitespace).reverse.dropWhile Char.isWhitespace).reverse⟩

/-- Python `str.lower()` (ASCII case folding). -/
def pyLower (s : String) : String := ⟨s.data.map Char.toLower⟩

/-- Python / pandas string `<`: lexicographic on code points. -/
def chListLt : List Char → List Char → Bool
  | [], [] => false
  | [], _ :: _ => true
  | _ :: _, [] => false
  | a :: as, b :: bs =>
    if a.toNat < b.toNat then true
    else if b.toNat < a.toNat then false
    else chListLt as bs

/-- Python string `a <= b`. -/
def pyStrLe (a b : String) : Bool := !(chListLt b.data a.data)

/-- Keys of a pandas groupby: distinct non-null values in ascending order. -/
def groupKeys (l : List (Option String)) : List String :=
  List.insertionSort (fun a b => pyStrLe a b = true) (uniq (l.filterMap id))

/-- Last run of decimal digits in a character list (`re.findall(r"\d+", s)[-1]`),
as a number; `none` when the string has no digit. -/
def lastNumAux : List Char → Option ℕ → Option ℕ → Option ℕ
  | [], cur, last => match cur with
    | some n => some n
    | none => last
  | c :: cs, cur, last =>
    if c.isDigit then
      lastNumAux cs (some ((cur.getD 0) * 10 + (c.toNat - 48))) last
    else match cur with
      | some n => lastNumAux cs none (some n)
      | none => lastNumAux cs none last

/-- `int(re.findall(r"\d+", s)[-1])` if a digit run exists. -/
def lastNumToken (s : String) : Option ℕ := lastNumAux s.data none none

/-- First run of decimal digits (`re.search(r"(\d+)", s)`). -/
def firstNumAux : List Char → Option ℕ → Option ℕ
  | [], cur => cur
  | c :: cs, cur =>
    if c.isDigit then firstNumAux cs (some ((cur.getD 0) * 10 + (c.toNat - 48)))
    else match cur with
      | some n => some n
      | none => firstNumAux cs none

/-- `int(re.search(r"(\d+)", s).group(1))` if any digit exists. -/
def firstNumToken (s : String) : Option ℕ := firstNumAux s.data none

/-- kenya_grading.sort_terms key: TERM_META order for the three canonical
labels, else the last embedded number, else 99. -/
def termKey (t : String) : ℕ :=
  let s := pyStrip t
  if s = "Term 1" then 1
  else if s = "Term 2" then 2
  else if s = "Term 3" then 3
  else match lastNumToken s with
    | some n => n
    | none => 99

/-- kenya_grading.sort_terms: Python's stable sort by `termKey`. -/
def sortTerms (l : List String) : List String :=
  List.insertionSort (fun a b => termKey a ≤ termKey b) l

instance : IsTotal String (fun a b => termKey a ≤ termKey b) :=
  ⟨fun a b => Nat.le_total (termKey a) (termKey b)⟩

instance : IsTrans String (fun a b => termKey a ≤ termKey b) :=
  ⟨fun _ _ _ h h2 => Nat.le_trans h h2⟩

/-- C7 (amended): sort_terms is idempotent; the given concrete list sorts in
calendar order; and a label with no digit run gets sort key 99. -/
theorem sortTerms_spec :
    (∀ l : List String, sortTerms (sortTerms l) = sortTerms l) ∧
    sortTerms ["Term 2", "Term 1", "Term 3"] = ["Term 1", "Term 2", "Term 3"] ∧
    (∀ t : String, lastNumToken (pyStrip t) = none → termKey t = 99) := by
  refine ⟨fun l => ?_, by decide, fun t h => ?_⟩
  · exact List.Sorted.insertionSort_eq
      (List.sorted_insertionSort (fun a b => termKey a ≤ termKey b) l)
  · unfold termKey
    by_cases h1 : pyStrip t = "Term 1"
    · rw [h1] at h; exact absurd h (by decide)
    · by_cases h2 : pyStrip t = "Term 2"
      · rw [h2] at h; exact absurd h (by decide)
      · by_cases h3 : pyStrip t = "Term 3"
        · rw [h3] at h; exact absurd h (by decide)
        · simp only [h1, h2, h3, if_false, h]

/-- C7 witness: the three parts of `sortTerms_spec` at concrete inputs. -/
theorem sortTerms_spec_witness :
    sortTerms (sortTerms ["T2", "T1"]) = sortTerms ["T2", "T1"] ∧
    (lastNumToken (pyStrip "Hello") = none ∧ termKey "Hello" = 99) :=
  ⟨sortTerms_spec.1 ["T2", "T1"],
   by decide, sortTerms_spec.2.2 "Hello" (by decide)⟩

/-- C7 counterexample: a term with no numeric token does **not** always sort
last — its key is 99, so a term whose numeric token exceeds 99 sorts after it. -/
theorem sortTerms_noToken_not_last :
    sortTerms ["Term 100", "Hello"] = ["Hello", "Term 100"] ∧
    lastNumToken (pyStrip "Hello") = none ∧
    (sortTerms ["Term 100", "Hello"]).getLast? = some "Term 100" := by
  refine ⟨by decide, by decide, by decide⟩

/-- Python `x >= c` for a float `x` and finite `c` (NaN compares false). -/
def PyF.geC : PyF → ℚ → Bool
  | .fin q, c => c ≤ q
  | .pinf, _ => true
  | _, _ => false

/-- One record of the (normalized) assessment table.  A `none` cell is a
missing value (pandas NaN); `pct` is the `percentage` column after
`pd.to_numeric(errors="coerce")`, so a coercion failure is also `none`. -/
structure Row where
  sid : Option String
  name : Option String
  cls : Option String
  subject : Option String
  term : Option String
  gender : Option String
  region : Option String
  exam : Option String
  pct : Option ℚ
deriving DecidableEq, Repr

instance : Inhabited Row := ⟨⟨none, none, none, none, none, none, none, none, none⟩⟩

/-- A DataFrame: rows plus one presence flag per logical column (the result of
`_find_col` over the alias lists reduces to these flags). -/
structure Table where
  hasSid : Bool
  hasName : Bool
  hasCls : Bool
  hasSubject : Bool
  hasTerm : Bool
  hasGender : Bool
  hasRegion : Bool
  hasExam : Bool
  rows : List Row
deriving DecidableEq, Repr

/-- `_find_col(df, ["student_id", "name", "student_name"])` found something. -/
def Table.hasStudentCol (t : Table) : Bool := t.hasSid || t.hasName

/-- The student-column cell of a row (student_id column preferred, mirroring
the alias order `["student_id", "name", "student_name"]`). -/
def studentCell (t : Table) (r : Row) : Option String :=
  if t.hasSid then r.sid else if t.hasName then r.name else none

/-- Python `str(cell)`: a missing value prints as `"nan"`. -/
def strCell : Option String → String
  | some s => s
  | none => "nan"

/-- pandas `==` on cells: a null never equals anything (NaN == x is False). -/
def cellMatch (a b : Option String) : Bool :=
  match a, b with
  | some x, some y => x = y
  | _, _ => false

/-- External library calls (np.sqrt and the scipy statistics) are modelled as
oracles; every theorem quantifies over them. -/
structure Oracles where
  sqrt : ℚ → ℚ
  welchT : List ℚ → List ℚ → PyF
  welchP : List ℚ → List ℚ → PyF
  anovaF : List (List ℚ) → PyF
  anovaP : List (List ℚ) → PyF
  pearsonP : List (ℚ × ℚ) → PyF

/-- A trivial oracle instantiation used for concrete evaluations in which the
oracle is never consulted. -/
def oracle0 : Oracles :=
  ⟨fun _ => 0, fun _ _ => .fin 0, fun _ _ => .fin 0,
   fun _ => .fin 0, fun _ => .fin 0, fun _ => .fin 0⟩

/-- Least-squares slope of `np.polyfit(range(n), ys, 1)` (exact for n ≥ 2). -/
def lsSlope (ys : List ℚ) : ℚ :=
  let n : ℚ := ys.length
  let xs : List ℚ := (List.range ys.length).map (fun i => (i : ℚ))
  let sx := xs.sum
  let sy := ys.sum
  let sxy := ((xs.zip ys).map (fun p => p.1 * p.2)).sum
  let sxx := (xs.map (fun x => x * x)).sum
  (n * sxy - sx * sy) / (n * sxx - sx * sx)

/-- `np.polyfit` slope over a list of per-group means that may contain NaN
(the slope is then NaN). -/
def pfSlope (ys : List PyF) : PyF :=
  if ys.all (fun v => v.isFin) then
    .fin (lsSlope (ys.filterMap (fun v => match v with | .fin q => some q | _ => none)))
  else .nan

/-! ## risk.py — compute_risk_scores

String-template fields (`detail`, `recommendation`) are pure text assembled
from already-present data and are omitted from the record model; every other
key of the returned dicts is modelled. -/

/-- One entry of a student's `factors` list (risk.py).  `failed_subjects` is
the extra key added only in the ≥3-failed-subjects branch. -/
structure RFactor where
  factor : String
  weight : ℕ
  triggered : Bool
  failed_subjects : Option (List String)
deriving DecidableEq, Repr

/-- One entry of the `students` list returned by compute_risk_scores. -/
structure RStudent where
  student_id : String
  name : String
  risk_score : Option PyF
  risk_level : String
  overall_mean : Option PyF
  trend_direction : String
  factors : List RFactor
  cls : Option String
deriving DecidableEq, Repr

/-- The `summary` dict of compute_risk_scores (full branch). -/
structure RiskSummary where
  total : ℕ
  high_risk : ℕ
  medium_risk : ℕ
  low_risk : ℕ
  school_average : Option PyF
  high_risk_pct : Option PyF
deriving DecidableEq, Repr

/-- Return value of compute_risk_scores: the degenerate
`{"students": [], "summary": {"total": 0}}` no-student-column dict, or the
full structure. -/
inductive RiskOut where
  | noStudentCol
  | ok (students : List RStudent) (summary : RiskSummary)
deriving DecidableEq, Repr

/-- The `students` list of the result. -/
def RiskOut.students : RiskOut → List RStudent
  | .noStudentCol => []
  | .ok s _ => s

/-- The full `summary` dict of the result, when present. -/
def RiskOut.summary : RiskOut → Option RiskSummary
  | .noStudentCol => none
  | .ok _ s => some s

/-- Rows of one student: `df[df[student_col] == sid]`. -/
def studentRows (t : Table) (sid : Option String) : List Row :=
  t.rows.filter (fun r => cellMatch (studentCell t r) sid)

/-- `rows["percentage"].dropna()`. -/
def rowsPct (rows : List Row) : List ℚ := rows.filterMap (·.pct)

/-- Factor 1: overall average below pass mark,
`min(shortfall / pass_mark * 100, 100)` (numpy gives +inf for pass_mark 0,
and `min(inf, 100) = 100`). -/
def riskAvgScore (pm mean : ℚ) : PyF :=
  if mean < pm then (PyF.scale 100 (pyDiv (pm - mean) pm)).minC 100 else .fin 0

/-- `rows.groupby(subject_col)["percentage"].mean()`: per-subject means in
ascending subject order (a group of all-null percentages has mean NaN). -/
def subjMeansOf (rows : List Row) : List (String × PyF) :=
  (groupKeys (rows.map (·.subject))).map
    (fun s => (s, pfMean (rowsPct (rows.filter (fun r => r.subject = some s)))))

/-- Factor 2 score: `(subject_means < pass_mark)` counts, scaled. -/
def riskFailScore (pm : ℚ) (sm : List (String × PyF)) : ℚ :=
  let failed := (sm.filter (fun p => p.2.ltC pm)).length
  let total := sm.length
  if 3 ≤ failed then min ((failed : ℚ) / (max total 1 : ℕ) * 100) 100
  else if 0 < failed then (failed : ℚ) / (max total 1 : ℕ) * 50
  else 0

/-- `rows.groupby(term_col)["percentage"].mean().sort_index()`. -/
def termMeansOf (rows : List Row) : List PyF :=
  (groupKeys (rows.map (·.term))).map
    (fun tm => pfMean (rowsPct (rows.filter (fun r => r.term = some tm))))

/-- Factor 3: (score, trend_direction, triggered) from the polyfit slope of
the per-term means (NaN slope compares false on both sides ⇒ "stable"). -/
def riskTrend (tmeans : List PyF) : ℚ × String × Bool :=
  match pfSlope tmeans with
  | .fin q =>
    if q < -3 then (min (|q| / 10 * 100) 100, "declining", true)
    else if 3 < q then (0, "improving", false)
    else (0, "stable", false)
  | _ => (0, "stable", false)

/-- Class-level stats for the class-deviation factor: mean and std (ddof=1)
of every class with more than one valid percentage. -/
def riskClassStats (o : Oracles) (t : Table) : List (String × ℚ × ℚ) :=
  if t.hasCls then
    (groupKeys (t.rows.map (·.cls))).filterMap (fun c =>
      let pct := rowsPct (t.rows.filter (fun r => r.cls = some c))
      if 1 < pct.length then some (c, qMean pct, o.sqrt (qVar pct)) else none)
  else []

/-- Factor 4: (score, appended factor record) from the student's class stats
(no record at all when the class is unknown or its std is not positive). -/
def riskClassDev (mean : ℚ) (stat : Option (ℚ × ℚ)) : ℚ × Option RFactor :=
  match stat with
  | some (cmean, cstd) =>
    if 0 < cstd then
      let dev := (cmean - mean) / cstd
      if 1.5 < dev then (min (dev / 3 * 100) 100, some ⟨"Class Deviation", 10, true, none⟩)
      else (0, some ⟨"Class Deviation", 10, false, none⟩)
    else (0, none)
  | none => (0, none)

/-- `sort_values(term_col)`: stable sort with null terms last. -/
def termCellLe (a b : Option String) : Bool :=
  match a, b with
  | some x, some y => pyStrLe x y
  | some _, none => true
  | none, none => true
  | none, some _ => false

/-- Percentages of one subject's rows in term order. -/
def sortedSubjScores (rows : List Row) (s : Option String) : List (Option ℚ) :=
  (List.insertionSort (fun r1 r2 => termCellLe r1.term r2.term)
    (rows.filter (fun r => cellMatch r.subject s))).map (·.pct)

/-- Consecutive declines `scores[i-1] - scores[i]` over valid neighbours. -/
def consecDrops : List (Option ℚ) → List ℚ
  | [] => []
  | [_] => []
  | a :: b :: rest =>
    (match a, b with
     | some x, some y => [x - y]
     | _, _ => []) ++ consecDrops (b :: rest)

/-- Factor 5 input: the largest single-subject term-over-term decline
(`biggest_drop`, starting from 0). -/
def biggestDropOf (rows : List Row) : ℚ :=
  ((uniq (rows.map (·.subject))).flatMap
    (fun s => consecDrops (sortedSubjScores rows s))).foldl
    (fun acc d => if acc < d then d else acc) 0

/-- Factor 2 gated by subject-column presence (`fail_score` stays 0.0 without
a subject column). -/
def riskFailScoreOf (t : Table) (pm : ℚ) (sdf : List Row) : ℚ :=
  if t.hasSubject then riskFailScore pm (subjMeansOf sdf) else 0

/-- Factor 3 gated by term-column presence and ≥2 terms: (score, direction,
triggered); defaults (0, "stable", false). -/
def riskTrendTriple (t : Table) (sdf : List Row) : ℚ × String × Bool :=
  if t.hasTerm && decide (2 ≤ (termMeansOf sdf).length) then riskTrend (termMeansOf sdf)
  else (0, "stable", false)

/-- Factor 4 gated by class-column presence: the student's class is
`str(sdf.iloc[0][class_col])`. -/
def riskClassDevPair (o : Oracles) (t : Table) (mean : ℚ) (sdf : List Row) :
    ℚ × Option RFactor :=
  if t.hasCls then
    riskClassDev mean
      (((riskClassStats o t).find? (fun p => p.1 = strCell sdf.headI.cls)).map (fun p => p.2))
  else (0, none)

/-- Factor 5 gated by term+subject columns and ≥2 distinct term cells. -/
def riskDropPair (t : Table) (sdf : List Row) : ℚ × Option RFactor :=
  if t.hasTerm && t.hasSubject && decide (2 ≤ (uniq (sdf.map (·.term))).length) then
    (if 20 < biggestDropOf sdf then min (biggestDropOf sdf / 40 * 100) 100 else 0,
     some ⟨"Sudden Drop", 10, decide (20 < biggestDropOf sdf), none⟩)
  else (0, none)

/-- `risk_score` before rounding: the weighted sum of the five factors. -/
def riskTotal (o : Oracles) (t : Table) (pm : ℚ) (sid : Option String) : PyF :=
  let sdf := studentRows t sid
  let mean := qMean (rowsPct sdf)
  PyF.add (PyF.add (PyF.add (PyF.add (PyF.add (.fin 0) ((riskAvgScore pm mean).scale 0.30))
    (.fin (riskFailScoreOf t pm sdf * 0.25))) (.fin ((riskTrendTriple t sdf).1 * 0.25)))
    (.fin ((riskClassDevPair o t mean sdf).1 * 0.10))) (.fin ((riskDropPair t sdf).1 * 0.10))

/-- `risk_score = min(round(risk_score, 1), 100)`. -/
def riskFinal (o : Oracles) (t : Table) (pm : ℚ) (sid : Option String) : PyF :=
  (pfRound 1 (riskTotal o t pm sid)).minC 100

/-- `>= 70 → High, >= 40 → Medium, else Low`. -/
def riskLevelOf (rs : PyF) : String :=
  if rs.geC 70 then "High" else if rs.geC 40 then "Medium" else "Low"

/-- The student dict appended to `students` (scoring already guaranteed at
least one valid percentage, so `sdf` is non-empty). -/
def mkRiskStudent (o : Oracles) (t : Table) (pm : ℚ) (sid : Option String) : RStudent :=
  let sdf := studentRows t sid
  let mean := qMean (rowsPct sdf)
  let sm := subjMeansOf sdf
  let failed := (sm.filter (fun p => p.2.ltC pm)).length
  ⟨strCell sid,
   if t.hasName then strCell sdf.headI.name else strCell sid,
   some (riskFinal o t pm sid),
   riskLevelOf (riskFinal o t pm sid),
   safeFloat2 (.fin mean),
   (riskTrendTriple t sdf).2.1,
   ⟨"Overall Average", 30, decide (mean < pm), none⟩ ::
     ((if t.hasSubject then
         [(⟨"Subjects Failed", 25, decide (0 < failed),
           if 3 ≤ failed then
             some ((sm.filter (fun p => p.2.ltC pm)).map (fun p => p.1))
           else none⟩ : RFactor)]
       else []) ++
      (if t.hasTerm then
         [(⟨"Score Trend", 25, (riskTrendTriple t sdf).2.2, none⟩ : RFactor)]
       else []) ++
      (riskClassDevPair o t mean sdf).2.toList ++ (riskDropPair t sdf).2.toList),
   if t.hasCls then some (strCell sdf.headI.cls) else none⟩

/-- Score one student (the body of the `for sid in student_ids` loop);
`none` when the student has no valid percentage (the `continue`). -/
def riskStudent (o : Oracles) (t : Table) (pm : ℚ) (sid : Option String) :
    Option RStudent :=
  if (rowsPct (studentRows t sid)).isEmpty then none
  else some (mkRiskStudent o t pm sid)

/-- `_safe_float(df["percentage"].dropna().mean())`: the school average. -/
def riskSchoolAvg (t : Table) : Option PyF :=
  safeFloat2 (pfMean (t.rows.filterMap (·.pct)))

/-- All scored students, in first-appearance order of the student column. -/
def riskScored (o : Oracles) (t : Table) (pm : ℚ) : List RStudent :=
  (uniq (t.rows.map (studentCell t))).filterMap (riskStudent o t pm)

/-- The output filter: keep only students whose (rounded) mean is below both
the (rounded) school average and the pass mark. -/
def riskKeep (sa : PyF) (pm : ℚ) (s : RStudent) : Bool :=
  match s.overall_mean, sa with
  | some (.fin m), .fin a => decide (m < a) && decide (m < pm)
  | _, _ => false

/-- The filtered `students` list (no filtering when the school average is
None, which only happens when the whole table has no valid percentage). -/
def riskFiltered (o : Oracles) (t : Table) (pm : ℚ) : List RStudent :=
  match riskSchoolAvg t with
  | some sa => (riskScored o t pm).filter (riskKeep sa pm)
  | none => riskScored o t pm

/-- Sort key for the final descending sort (`s["risk_score"]`; the score is
always a finite float — see `risk_range_spec`). -/
def rsKey (s : RStudent) : ℚ :=
  match s.risk_score with
  | some (.fin q) => q
  | _ => 0

/-- The filtered list sorted by risk score, descending, stably. -/
def riskSorted (o : Oracles) (t : Table) (pm : ℚ) : List RStudent :=
  List.insertionSort (fun a b => rsKey b ≤ rsKey a) (riskFiltered o t pm)

/-- `_sanitize` on one student record (floats only; strings/ints unchanged). -/
def sanitizeRStudent (s : RStudent) : RStudent :=
  { s with risk_score := sanOpt s.risk_score, overall_mean := sanOpt s.overall_mean }

/-- risk.compute_risk_scores. -/
def computeRiskScores (o : Oracles) (t : Table) (pm : ℚ) : RiskOut :=
  if t.hasStudentCol = false then .noStudentCol else
  let students := riskSorted o t pm
  let high := (students.filter (fun s => s.risk_level = "High")).length
  let med := (students.filter (fun s => s.risk_level = "Medium")).length
  let low := (students.filter (fun s => s.risk_level = "Low")).length
  .ok (students.map sanitizeRStudent)
    ⟨students.length, high, med, low, sanOpt (riskSchoolAvg t),
     if students.isEmpty then some (.fin 0)
     else sanOpt (safeFloat2 (.fin ((high : ℚ) / students.length * 100)))⟩

/-! ### Range and membership lemmas for the risk engine -/

theorem roundHE_nonneg {x : ℚ} (h : 0 ≤ x) : 0 ≤ roundHE x := by
  have hf : (0 : ℤ) ≤ ⌊x⌋ := Int.floor_nonneg.mpr h
  simp only [roundHE]
  split_ifs <;> omega

theorem roundTo_nonneg (n : ℕ) {x : ℚ} (h : 0 ≤ x) : 0 ≤ roundTo n x := by
  unfold roundTo
  apply div_nonneg
  · exact_mod_cast roundHE_nonneg (by positivity)
  · positivity

theorem riskAvgScore_range (pm mean : ℚ) (hpm : 0 ≤ pm) :
    ∃ a, riskAvgScore pm mean = .fin a ∧ 0 ≤ a ∧ a ≤ 100 := by
  unfold riskAvgScore
  by_cases hlt : mean < pm
  · rw [if_pos hlt]
    unfold pyDiv
    by_cases hz : pm = 0
    · subst hz
      rw [if_neg (by simp), if_pos (by linarith)]
      exact ⟨100, rfl, by norm_num, by norm_num⟩
    · have hpos : 0 < pm := lt_of_le_of_ne hpm (Ne.symm hz)
      rw [if_pos hz]
      refine ⟨min (100 * ((pm - mean) / pm)) 100, rfl, ?_, min_le_right _ _⟩
      have : 0 ≤ (pm - mean) / pm := div_nonneg (by linarith) (le_of_lt hpos)
      exact le_min (by linarith) (by norm_num)
  · exact ⟨0, if_neg hlt, le_refl 0, by norm_num⟩

theorem riskFailScore_range (pm : ℚ) (sm : List (String × PyF)) :
    0 ≤ riskFailScore pm sm ∧ riskFailScore pm sm ≤ 100 := by
  simp only [riskFailScore]
  have hft : (sm.filter (fun p => p.2.ltC pm)).length ≤ sm.length :=
    List.length_filter_le _ _
  have hmax : (1 : ℚ) ≤ ((max sm.length 1 : ℕ) : ℚ) := by
    exact_mod_cast Nat.le_max_right sm.length 1
  have hnum : ((sm.filter (fun p => p.2.ltC pm)).length : ℚ) ≤ ((max sm.length 1 : ℕ) : ℚ) := by
    exact_mod_cast le_trans hft (Nat.le_max_left _ _)
  split_ifs with h1 h2
  · exact ⟨le_min (by positivity) (by norm_num), min_le_right _ _⟩
  · constructor
    · positivity
    · have hr : ((sm.filter (fun p => p.2.ltC pm)).length : ℚ) / ((max sm.length 1 : ℕ) : ℚ) ≤ 1 :=
        (div_le_one (by linarith)).mpr hnum
      nlinarith
  · exact ⟨le_refl 0, by norm_num⟩

theorem riskTrend_range (tm : List PyF) :
    0 ≤ (riskTrend tm).1 ∧ (riskTrend tm).1 ≤ 100 := by
  unfold riskTrend
  cases h : pfSlope tm <;> simp only
  case fin q =>
    split_ifs
    · exact ⟨le_min (by positivity) (by norm_num), min_le_right _ _⟩
    · exact ⟨le_refl 0, by norm_num⟩
    · exact ⟨le_refl 0, by norm_num⟩
  all_goals exact ⟨le_refl 0, by norm_num⟩

theorem riskClassDev_range (mean : ℚ) (st : Option (ℚ × ℚ)) :
    0 ≤ (riskClassDev mean st).1 ∧ (riskClassDev mean st).1 ≤ 100 := by
  simp only [riskClassDev]
  cases st with
  | none => exact ⟨le_refl 0, by norm_num⟩
  | some p =>
    obtain ⟨cmean, cstd⟩ := p
    simp only
    split_ifs with h1 h2
    · refine ⟨le_min ?_ (by norm_num), min_le_right _ _⟩
      have : (0 : ℚ) < (cmean - mean) / cstd := by linarith
      linarith
    · exact ⟨le_refl 0, by norm_num⟩
    · exact ⟨le_refl 0, by norm_num⟩

theorem riskFailScoreOf_range (t : Table) (pm : ℚ) (sdf : List Row) :
    0 ≤ riskFailScoreOf t pm sdf ∧ riskFailScoreOf t pm sdf ≤ 100 := by
  unfold riskFailScoreOf
  split_ifs
  · exact riskFailScore_range pm (subjMeansOf sdf)
  · exact ⟨le_refl 0, by norm_num⟩

theorem riskTrendTriple_range (t : Table) (sdf : List Row) :
    0 ≤ (riskTrendTriple t sdf).1 ∧ (riskTrendTriple t sdf).1 ≤ 100 := by
  unfold riskTrendTriple
  split_ifs
  · exact riskTrend_range _
  · exact ⟨le_refl 0, by norm_num⟩

theorem riskClassDevPair_range (o : Oracles) (t : Table) (mean : ℚ) (sdf : List Row) :
    0 ≤ (riskClassDevPair o t mean sdf).1 ∧ (riskClassDevPair o t mean sdf).1 ≤ 100 := by
  unfold riskClassDevPair
  split_ifs
  · exact riskClassDev_range _ _
  · exact ⟨le_refl 0, by norm_num⟩

theorem riskDropPair_range (t : Table) (sdf : List Row) :
    0 ≤ (riskDropPair t sdf).1 ∧ (riskDropPair t sdf).1 ≤ 100 := by
  unfold riskDropPair
  split_ifs with h1 h2
  · refine ⟨le_min ?_ (by norm_num), min_le_right _ _⟩
    have : (0 : ℚ) < biggestDropOf sdf := by linarith
    positivity
  · exact ⟨le_refl 0, by norm_num⟩
  · exact ⟨le_refl 0, by norm_num⟩

theorem riskTotal_fin (o : Oracles) (t : Table) (pm : ℚ) (sid : Option String)
    (hpm : 0 ≤ pm) :
    ∃ q, riskTotal o t pm sid = .fin q ∧ 0 ≤ q ∧ q ≤ 100 := by
  simp only [riskTotal]
  obtain ⟨a, ha, ha0, ha100⟩ :=
    riskAvgScore_range pm (qMean (rowsPct (studentRows t sid))) hpm
  obtain ⟨hb0, hb100⟩ := riskFailScoreOf_range t pm (studentRows t sid)
  obtain ⟨hc0, hc100⟩ := riskTrendTriple_range t (studentRows t sid)
  obtain ⟨hd0, hd100⟩ :=
    riskClassDevPair_range o t (qMean (rowsPct (studentRows t sid))) (studentRows t sid)
  obtain ⟨he0, he100⟩ := riskDropPair_range t (studentRows t sid)
  rw [ha]
  refine ⟨_, rfl, ?_, ?_⟩ <;> nlinarith

theorem riskFinal_spec (o : Oracles) (t : Table) (pm : ℚ) (sid : Option String)
    (hpm : 0 ≤ pm) :
    ∃ q, riskFinal o t pm sid = .fin q ∧ 0 ≤ q ∧ q ≤ 100 ∧
      riskLevelOf (riskFinal o t pm sid) =
        (if 70 ≤ q then "High" else if 40 ≤ q then "Medium" else "Low") := by
  obtain ⟨tq, htq, h0, h100⟩ := riskTotal_fin o t pm sid hpm
  unfold riskFinal
  rw [htq]
  refine ⟨min (roundTo 1 tq) 100, rfl, le_min (roundTo_nonneg 1 h0) (by norm_num),
    min_le_right _ _, ?_⟩
  simp only [riskLevelOf, pfRound, PyF.minC, PyF.geC, decide_eq_true_eq]

theorem mkRiskStudent_score (o : Oracles) (t : Table) (pm : ℚ) (sid : Option String) :
    (mkRiskStudent o t pm sid).risk_score = some (riskFinal o t pm sid) := rfl

theorem mkRiskStudent_level (o : Oracles) (t : Table) (pm : ℚ) (sid : Option String) :
    (mkRiskStudent o t pm sid).risk_level = riskLevelOf (riskFinal o t pm sid) := rfl

theorem mkRiskStudent_mean (o : Oracles) (t : Table) (pm : ℚ) (sid : Option String) :
    (mkRiskStudent o t pm sid).overall_mean =
      safeFloat2 (.fin (qMean (rowsPct (studentRows t sid)))) := rfl

theorem mkRiskStudent_id (o : Oracles) (t : Table) (pm : ℚ) (sid : Option String) :
    (mkRiskStudent o t pm sid).student_id = strCell sid := rfl

theorem sanitizeRStudent_level (s : RStudent) :
    (sanitizeRStudent s).risk_level = s.risk_level := rfl

theorem sanitizeRStudent_id (s : RStudent) :
    (sanitizeRStudent s).student_id = s.student_id := rfl

theorem mem_risk_students {o : Oracles} {t : Table} {pm : ℚ} {s : RStudent}
    (h : s ∈ (computeRiskScores o t pm).students) :
    ∃ s₀, s₀ ∈ riskFiltered o t pm ∧ s = sanitizeRStudent s₀ ∧
      ∃ sid, riskStudent o t pm sid = some s₀ := by
  unfold computeRiskScores at h
  by_cases hc : t.hasStudentCol = false
  · rw [if_pos hc] at h
    simp only [RiskOut.students] at h
    exact absurd h (List.not_mem_nil s)
  · rw [if_neg hc] at h
    simp only [RiskOut.students] at h
    obtain ⟨s₀, hs₀, heq⟩ := List.mem_map.mp h
    have hmemf : s₀ ∈ riskFiltered o t pm := by
      unfold riskSorted at hs₀
      exact (List.mem_insertionSort _).mp hs₀
    have hmemsc : s₀ ∈ riskScored o t pm := by
      unfold riskFiltered at hmemf
      cases hsa : riskSchoolAvg t with
      | some sa => rw [hsa] at hmemf; exact (List.mem_filter.mp hmemf).1
      | none => rw [hsa] at hmemf; exact hmemf
    obtain ⟨sid, _, hst⟩ := List.mem_filterMap.mp hmemsc
    exact ⟨s₀, hmemf, heq.symm, sid, hst⟩

theorem riskStudent_eq_mk {o : Oracles} {t : Table} {pm : ℚ} {sid : Option String}
    {s : RStudent} (h : riskStudent o t pm sid = some s) :
    s = mkRiskStudent o t pm sid ∧ (rowsPct (studentRows t sid)).isEmpty = false := by
  unfold riskStudent at h
  split at h
  · cases h
  · rename_i hcond
    exact ⟨(Option.some_inj.mp h).symm, by simpa using hcond⟩

/-- C6: every student assessment returned by compute_risk_scores has
`0 ≤ risk_score ≤ 100`, and `risk_level` is exactly the threshold function of
`risk_score` (`≥70 → High`, `≥40 → Medium`, else `Low`).  The pass mark is
taken non-negative: with a negative pass mark factor 1's scaling flips sign. -/
theorem risk_range_spec (o : Oracles) (t : Table) (pm : ℚ) (hpm : 0 ≤ pm) :
    ∀ s ∈ (computeRiskScores o t pm).students,
      ∃ q, s.risk_score = some (.fin q) ∧ 0 ≤ q ∧ q ≤ 100 ∧
        s.risk_level = (if 70 ≤ q then "High" else if 40 ≤ q then "Medium" else "Low") := by
  intro s hs
  obtain ⟨s₀, _, rfl, sid, hsid⟩ := mem_risk_students hs
  obtain ⟨rfl, -⟩ := riskStudent_eq_mk hsid
  obtain ⟨q, hq, h0, h100, hlvl⟩ := riskFinal_spec o t pm sid hpm
  refine ⟨q, ?_, h0, h100, ?_⟩
  · show sanOpt (mkRiskStudent o t pm sid).risk_score = some (.fin q)
    rw [mkRiskStudent_score, hq]
    rfl
  · rw [sanitizeRStudent_level, mkRiskStudent_level, hlvl]

theorem riskScored_empty_of_no_avg {o : Oracles} {t : Table} {pm : ℚ}
    (h : riskSchoolAvg t = none) : riskScored o t pm = [] := by
  have hemp : (t.rows.filterMap (fun r => r.pct)).isEmpty = true := by
    by_contra hne
    have : riskSchoolAvg t =
        some (.fin (roundTo 2 (qMean (t.rows.filterMap (fun r => r.pct))))) := by
      unfold riskSchoolAvg pfMean
      rw [if_neg (by simpa using hne)]
      rfl
    rw [this] at h
    cases h
  have hall : ∀ r ∈ t.rows, r.pct = none := by
    intro r hr
    have hnil : t.rows.filterMap (fun r => r.pct) = [] := by
      cases hl : t.rows.filterMap (fun r => r.pct) with
      | nil => rfl
      | cons a l => rw [hl] at hemp; cases hemp
    exact List.filterMap_eq_nil.mp hnil r hr
  unfold riskScored
  apply List.filterMap_eq_nil.mpr
  intro sid _
  unfold riskStudent
  have hz : rowsPct (studentRows t sid) = [] := by
    apply List.filterMap_eq_nil.mpr
    intro r hr
    exact hall r (List.mem_of_mem_filter hr)
  rw [hz]
  rfl

/-- C1: every student in the output of compute_risk_scores has
(reported, 2-dp-rounded) mean strictly below both the (reported) school
average and the pass mark; a scored student failing the filter predicate is
absent from the output; and the summary counts are computed over the
filtered list only. -/
theorem risk_filter_spec (o : Oracles) (t : Table) (pm : ℚ) :
    (∀ s ∈ (computeRiskScores o t pm).students,
       ∃ sa m, riskSchoolAvg t = some (.fin sa) ∧ s.overall_mean = some (.fin m) ∧
         m < sa ∧ m < pm) ∧
    (∀ s ∈ riskScored o t pm, ∀ sa, riskSchoolAvg t = some sa →
       riskKeep sa pm s = false →
       sanitizeRStudent s ∉ (computeRiskScores o t pm).students) ∧
    (∀ st sm, computeRiskScores o t pm = .ok st sm →
       sm.high_risk = (st.filter (fun s => s.risk_level = "High")).length ∧
       sm.medium_risk = (st.filter (fun s => s.risk_level = "Medium")).length ∧
       sm.low_risk = (st.filter (fun s => s.risk_level = "Low")).length ∧
       sm.total = st.length ∧
       sm.high_risk_pct = (if st.isEmpty then some (.fin 0)
         else sanOpt (safeFloat2 (.fin ((sm.high_risk : ℚ) / st.length * 100))))) := by
  refine ⟨?_, ?_, ?_⟩
  · intro s hs
    obtain ⟨s₀, hf, rfl, sid, hsid⟩ := mem_risk_students hs
    cases hsa : riskSchoolAvg t with
    | none =>
      exfalso
      have hsc : riskScored o t pm = [] := riskScored_empty_of_no_avg hsa
      simp only [riskFiltered, hsa, hsc] at hf
      exact List.not_mem_nil _ hf
    | some sa =>
      have hkeep : riskKeep sa pm s₀ = true := by
        simp only [riskFiltered, hsa] at hf
        exact (List.mem_filter.mp hf).2
      obtain ⟨rfl, -⟩ := riskStudent_eq_mk hsid
      cases sa with
      | fin a =>
        simp only [riskKeep, mkRiskStudent_mean, safeFloat2, Bool.and_eq_true,
          decide_eq_true_eq] at hkeep
        exact ⟨a, roundTo 2 (qMean (rowsPct (studentRows t sid))), rfl, rfl,
          hkeep.1, hkeep.2⟩
      | nan => simp [riskKeep, mkRiskStudent_mean, safeFloat2] at hkeep
      | pinf => simp [riskKeep, mkRiskStudent_mean, safeFloat2] at hkeep
      | ninf => simp [riskKeep, mkRiskStudent_mean, safeFloat2] at hkeep
  · intro s _ sa hsa hkeepf hmem
    obtain ⟨s₂, hf2, heq, -⟩ := mem_risk_students hmem
    have hkeep2 : riskKeep sa pm s₂ = true := by
      simp only [riskFiltered, hsa] at hf2
      exact (List.mem_filter.mp hf2).2
    have hinv : ∀ x : RStudent, riskKeep sa pm (sanitizeRStudent x) = riskKeep sa pm x := by
      intro x
      unfold riskKeep sanitizeRStudent sanOpt
      cases x.overall_mean with
      | none => rfl
      | some v => cases v <;> cases sa <;> rfl
    have : riskKeep sa pm s = riskKeep sa pm s₂ := by
      rw [← hinv s, ← hinv s₂, heq]
    rw [hkeepf, hkeep2] at this
    cases this
  · intro st sm h
    unfold computeRiskScores at h
    by_cases hc : t.hasStudentCol = false
    · rw [if_pos hc] at h
      cases h
    · rw [if_neg hc] at h
      injection h with h1 h2
      subst h1
      subst h2
      have key : ∀ (lvl : String) (l : List RStudent),
          ((l.map sanitizeRStudent).filter (fun s => s.risk_level = lvl)).length =
          (l.filter (fun s => s.risk_level = lvl)).length := by
        intro lvl l
        rw [List.filter_map, List.length_map]
        congr 1
      have hemp : (List.map sanitizeRStudent (riskSorted o t pm)).isEmpty =
          (riskSorted o t pm).isEmpty := by
        cases riskSorted o t pm <;> rfl
      refine ⟨(key _ _).symm, (key _ _).symm, (key _ _).symm, (List.length_map _ _).symm, ?_⟩
      simp only [hemp, List.length_map, key]

/-- C10: a student all of whose percentage values are missing or fail numeric
coercion is skipped before scoring and never appears in the output; every
returned assessment has a non-null overall_mean. -/
theorem risk_skip_invalid_spec (o : Oracles) (t : Table) (pm : ℚ) :
    (∀ s ∈ (computeRiskScores o t pm).students, ∃ m, s.overall_mean = some (.fin m)) ∧
    (∀ sid : String,
       (∀ r ∈ t.rows, cellMatch (studentCell t r) (some sid) = true → r.pct = none) →
       ∀ s ∈ (computeRiskScores o t pm).students, s.student_id ≠ sid) := by
  constructor
  · intro s hs
    obtain ⟨s₀, -, rfl, sid, hsid⟩ := mem_risk_students hs
    obtain ⟨rfl, -⟩ := riskStudent_eq_mk hsid
    exact ⟨roundTo 2 (qMean (rowsPct (studentRows t sid))), rfl⟩
  · intro sid hinv s hs heq
    obtain ⟨s₀, -, rfl, sid₀, hsid⟩ := mem_risk_students hs
    obtain ⟨rfl, hne⟩ := riskStudent_eq_mk hsid
    have hid : strCell sid₀ = sid := heq
    obtain ⟨p, hp⟩ : ∃ p, p ∈ rowsPct (studentRows t sid₀) := by
      refine List.exists_mem_of_ne_nil _ (fun hnil => ?_)
      rw [hnil] at hne
      cases hne
    obtain ⟨r, hr, hrp⟩ := List.mem_filterMap.mp hp
    have hrrows : r ∈ t.rows := List.mem_of_mem_filter hr
    have hmatch : cellMatch (studentCell t r) sid₀ = true := by
      have := (List.mem_filter.mp hr).2
      simpa using this
    cases sid₀ with
    | none =>
      have : cellMatch (studentCell t r) none = false := by
        cases studentCell t r <;> rfl
      rw [this] at hmatch
      cases hmatch
    | some v =>
      have hv : v = sid := hid
      subst hv
      have := hinv r hrrows hmatch
      rw [this] at hrp
      cases hrp

/-! ## stats.py — compute_overview

The model assumes that when an id-like column exists it is named
`student_id` (the alias shared by `student_col` and `student_id_col`), so the
two resolvers agree; `name`/`student_name` likewise.  String-template fields
contain no numeric data and the `detail` strings are omitted as before. -/

/-- pandas `Series.nunique()` (drops nulls). -/
def nunique (l : List (Option String)) : ℕ := (uniq (l.filterMap id)).length

/-- pandas median: middle of the sorted values (mean of the two middles for
even length). -/
def qMedian (l : List ℚ) : ℚ :=
  let s := List.insertionSort (fun a b : ℚ => a ≤ b) l
  let n := l.length
  if n % 2 = 1 then s.getD (n / 2) 0
  else (s.getD (n / 2 - 1) 0 + s.getD (n / 2) 0) / 2

/-- `Series.median()`: NaN on empty. -/
def pfMedian (l : List ℚ) : PyF := if l.isEmpty then .nan else .fin (qMedian l)

/-- `Series.std()` (ddof=1): NaN for fewer than two values. -/
def pfStd (o : Oracles) (l : List ℚ) : PyF :=
  if l.length ≤ 1 then .nan else .fin (o.sqrt (qVar l))

/-- Descending-by-value order with NaN last (`sort_values(ascending=False)`). -/
def meanDescLe (a b : String × PyF) : Bool :=
  match a.2, b.2 with
  | .fin x, .fin y => y ≤ x
  | .fin _, _ => true
  | _, .fin _ => false
  | _, _ => true

/-- `.tail(n)`. -/
def takeLast {α : Type} (n : ℕ) (l : List α) : List α := l.drop (l.length - n)

/-- `df.groupby(student_col)["percentage"].mean().sort_values(ascending=False)`. -/
def studentMeansSorted (t : Table) : List (String × PyF) :=
  List.insertionSort (fun a b => meanDescLe a b = true)
    ((groupKeys (t.rows.map (studentCell t))).map
      (fun k => (k, pfMean (rowsPct (studentRows t (some k))))))

/-- Same for subjects. -/
def subjectMeansSorted (t : Table) : List (String × PyF) :=
  List.insertionSort (fun a b => meanDescLe a b = true)
    ((groupKeys (t.rows.map (·.subject))).map
      (fun s => (s, pfMean (rowsPct (t.rows.filter (fun r => r.subject = some s))))))

/-- Same for classes. -/
def classMeansSorted (t : Table) : List (String × PyF) :=
  List.insertionSort (fun a b => meanDescLe a b = true)
    ((groupKeys (t.rows.map (·.cls))).map
      (fun c => (c, pfMean (rowsPct (t.rows.filter (fun r => r.cls = some c))))))

/-- Python truthiness of an optional string (empty string is falsy). -/
def truthy : Option String → Bool
  | some s => s ≠ ""
  | none => false

/-- The `(sid, sname)` pairs feeding `id_to_name` / `name_to_id`: rows where
both cells are present, stripped, non-empty and not the literal "nan". -/
def idNamePairs (t : Table) : List (String × String) :=
  if t.hasSid && t.hasName then
    t.rows.filterMap (fun r =>
      match r.sid, r.name with
      | some i, some n =>
        let si := pyStrip i
        let sn := pyStrip n
        if si ≠ "" && pyLower si ≠ "nan" && sn ≠ "" && pyLower sn ≠ "nan" then
          some (si, sn)
        else none
      | _, _ => none)
  else []

/-- Dict lookup where later writes win: the last pair whose key matches. -/
def lookupLastBy (f g : String × String → String) (k : String)
    (l : List (String × String)) : Option String :=
  ((l.filter (fun p => f p = k)).getLast?).map g

/-- `id_to_name.get(key)` (keys are lowercased ids). -/
def idToName (t : Table) (k : String) : Option String :=
  lookupLastBy (fun p => pyLower p.1) (fun p => p.2) k (idNamePairs t)

/-- `name_to_id.get(key)` (keys are lowercased names). -/
def nameToId (t : Table) (k : String) : Option String :=
  lookupLastBy (fun p => pyLower p.2) (fun p => p.1) k (idNamePairs t)

/-- `_student_display`: (display name, student_id, student_name). -/
def studentDisplay (t : Table) (key : String) : String × Option String × Option String :=
  let raw := pyStrip key
  let sid : Option String := if t.hasSid then some raw else nameToId t (pyLower raw)
  let sname : Option String := if t.hasSid then idToName t (pyLower raw) else some raw
  if truthy sname && truthy sid &&
      decide (pyLower (sname.getD "") ≠ pyLower (sid.getD "")) then
    ((sname.getD "") ++ " (" ++ (sid.getD "") ++ ")", sid, sname)
  else if truthy sname then (sname.getD "", sid, sname)
  else if truthy sid then (sid.getD "", sid, sname)
  else (raw, sid, sname)

/-- Entry of `top_students` / `bottom_students`. -/
structure SEntry where
  name : String
  student_id : Option String
  student_name : Option String
  mean : Option PyF
deriving DecidableEq, Repr

/-- Entry of `top_subjects` / `bottom_subjects` / `class_averages` /
`term_trends`. -/
structure NamedMean where
  label : String
  mean : Option PyF
deriving DecidableEq, Repr

/-- The `distribution` histogram. -/
structure Distribution where
  bins : List String
  counts : List ℕ
deriving DecidableEq, Repr

/-- np.histogram bin labels for edges [0,20,30,40,50,60,70,80,90,100]. -/
def histBinLabels : List String :=
  ["0-20", "20-30", "30-40", "40-50", "50-60", "60-70", "70-80", "80-90", "90-100"]

/-- Half-open np.histogram bins (the last bin is closed). -/
def histPairs : List (ℚ × ℚ) :=
  [(0, 20), (20, 30), (30, 40), (40, 50), (50, 60), (60, 70), (70, 80), (80, 90)]

/-- np.histogram counts over the fixed edges. -/
def histogramCounts (l : List ℚ) : List ℕ :=
  (histPairs.map (fun e =>
    (l.filter (fun p => decide (e.1 ≤ p) && decide (p < e.2))).length)) ++
  [(l.filter (fun p => decide ((90 : ℚ) ≤ p) && decide (p ≤ 100))).length]

/-- Return value of compute_overview. -/
structure OverviewOut where
  total_students : ℕ
  total_subjects : ℕ
  total_classes : ℕ
  total_terms : ℕ
  total_records : ℕ
  overall_mean : Option PyF
  overall_median : Option PyF
  overall_std : Option PyF
  pass_rate : Option PyF
  fail_rate : Option PyF
  pass_count : ℕ
  fail_count : ℕ
  distribution : Option Distribution
  top_students : Option (List SEntry)
  bottom_students : Option (List SEntry)
  top_subjects : Option (List NamedMean)
  bottom_subjects : Option (List NamedMean)
  class_averages : Option (List NamedMean)
  term_trends : Option (List NamedMean)
deriving DecidableEq, Repr

/-- `_sanitize` on one student entry. -/
def sanSE (x : SEntry) : SEntry := { x with mean := sanOpt x.mean }

/-- `_sanitize` on one labelled mean. -/
def sanNM (x : NamedMean) : NamedMean := { x with mean := sanOpt x.mean }

/-- `_sanitize` on the whole overview structure. -/
def sanitizeOverview (v : OverviewOut) : OverviewOut :=
  { v with
    overall_mean := sanOpt v.overall_mean
    overall_median := sanOpt v.overall_median
    overall_std := sanOpt v.overall_std
    pass_rate := sanOpt v.pass_rate
    fail_rate := sanOpt v.fail_rate
    top_students := v.top_students.map (List.map sanSE)
    bottom_students := v.bottom_students.map (List.map sanSE)
    top_subjects := v.top_subjects.map (List.map sanNM)
    bottom_subjects := v.bottom_subjects.map (List.map sanNM)
    class_averages := v.class_averages.map (List.map sanNM)
    term_trends := v.term_trends.map (List.map sanNM) }

/-- Build one top/bottom-students entry. -/
def mkSEntry (t : Table) (p : String × PyF) : SEntry :=
  ⟨(studentDisplay t p.1).1, (studentDisplay t p.1).2.1, (studentDisplay t p.1).2.2,
   safeFloat2 p.2⟩

/-- stats.compute_overview. -/
def computeOverview (o : Oracles) (t : Table) (pm : ℚ) : OverviewOut :=
  let pct := t.rows.filterMap (·.pct)
  let sMeans := studentMeansSorted t
  let subjMeans := subjectMeansSorted t
  sanitizeOverview
  { total_students :=
      if t.hasStudentCol then nunique (t.rows.map (studentCell t)) else t.rows.length
    total_subjects := if t.hasSubject then nunique (t.rows.map (·.subject)) else 0
    total_classes := if t.hasCls then nunique (t.rows.map (·.cls)) else 0
    total_terms := if t.hasTerm then nunique (t.rows.map (·.term)) else 0
    total_records := t.rows.length
    overall_mean := safeFloat2 (pfMean pct)
    overall_median := safeFloat2 (pfMedian pct)
    overall_std := safeFloat2 (pfStd o pct)
    pass_rate :=
      if 0 < pct.length then
        safeFloat2 (.fin (((pct.filter (fun p => pm ≤ p)).length : ℚ) / pct.length * 100))
      else some (.fin 0)
    fail_rate :=
      if 0 < pct.length then
        safeFloat2 (.fin (((pct.filter (fun p => p < pm)).length : ℚ) / pct.length * 100))
      else some (.fin 0)
    pass_count := (pct.filter (fun p => pm ≤ p)).length
    fail_count := (pct.filter (fun p => p < pm)).length
    distribution :=
      if 0 < pct.length then some ⟨histBinLabels, histogramCounts pct⟩ else none
    top_students :=
      if t.hasStudentCol then some ((sMeans.take 5).map (mkSEntry t)) else none
    bottom_students :=
      if t.hasStudentCol then some ((takeLast 5 sMeans).map (mkSEntry t)) else none
    top_subjects :=
      if t.hasSubject then
        some ((subjMeans.take 5).map (fun p => ⟨p.1, safeFloat2 p.2⟩)) else none
    bottom_subjects :=
      if t.hasSubject then
        some ((takeLast 5 subjMeans).map (fun p => ⟨p.1, safeFloat2 p.2⟩)) else none
    class_averages :=
      if t.hasCls then
        some ((classMeansSorted t).map (fun p => ⟨p.1, safeFloat2 p.2⟩)) else none
    term_trends :=
      if t.hasTerm then
        some ((sortTerms (groupKeys (t.rows.map (·.term)))).map
          (fun tm => ⟨tm, safeFloat2 (pfMean (rowsPct (t.rows.filter
            (fun r => r.term = some tm))))⟩))
      else none }

/-! ### Concrete scenario tables -/

instance : Inhabited RStudent := ⟨⟨"", "", none, "", none, "", [], none⟩⟩

/-- The C2 scenario table: two students, percentage scores [80, 90] and
[20, 30], all on the same subject and term, with a student_id column. -/
def tableC2 : Table :=
  ⟨true, false, false, true, true, false, false, false,
   [⟨some "S1", none, none, some "Math", some "Term 1", none, none, none, some 80⟩,
    ⟨some "S1", none, none, some "Math", some "Term 1", none, none, none, some 90⟩,
    ⟨some "S2", none, none, some "Math", some "Term 1", none, none, none, some 20⟩,
    ⟨some "S2", none, none, some "Math", some "Term 1", none, none, none, some 30⟩]⟩

set_option maxRecDepth 8000
set_option maxHeartbeats 2000000

/-- C2 counterexample: on the scenario table the low scorer appears in the
risk output with risk_level "Low" (risk_score 27.5), not "High" — factor 1
contributes 50·0.30 and factor 2 contributes 50·0.25, and no other factor
triggers with a single term. -/
theorem scenario_c2_risk_level_low :
    (computeRiskScores oracle0 tableC2 50).students.map
      (fun s => (s.student_id, s.risk_level, s.risk_score)) =
      [("S2", "Low", some (.fin 27.5))] := by
  with_unfolding_all rfl

/-- C2 (amended): overall_mean 55.0 and pass_rate 50.0 are as claimed, and
the low scorer appears in the risk output, but with risk_level "Low"
(risk_score 27.5).  The oracle is never consulted on this table (no class,
gender or second-subject data), so `oracle0` is representative. -/
theorem scenario_c2_amended :
    (computeOverview oracle0 tableC2 50).overall_mean = some (.fin 55) ∧
    (computeOverview oracle0 tableC2 50).pass_rate = some (.fin 50) ∧
    (computeRiskScores oracle0 tableC2 50).students.map
      (fun s => (s.student_id, s.risk_level, s.risk_score)) =
      [("S2", "Low", some (.fin 27.5))] := by
  refine ⟨?_, ?_, ?_⟩ <;> with_unfolding_all rfl

/-- The single student record produced by the C2 table. -/
def c2Student : RStudent := (computeRiskScores oracle0 tableC2 50).students.headI

/-- C1 witness: the C2 table's surviving student satisfies the filter
conclusion. -/
theorem risk_filter_spec_witness :
    c2Student ∈ (computeRiskScores oracle0 tableC2 50).students ∧
    (∃ sa m, riskSchoolAvg tableC2 = some (.fin sa) ∧
      c2Student.overall_mean = some (.fin m) ∧ m < sa ∧ m < 50) :=
  ⟨by with_unfolding_all decide,
   (risk_filter_spec oracle0 tableC2 50).1 c2Student (by with_unfolding_all decide)⟩

/-- C6 witness at pass mark 50 on the C2 table. -/
theorem risk_range_spec_witness :
    (0 : ℚ) ≤ 50 ∧
    (∃ q, c2Student.risk_score = some (.fin q) ∧ 0 ≤ q ∧ q ≤ 100 ∧
      c2Student.risk_level =
        (if 70 ≤ q then "High" else if 40 ≤ q then "Medium" else "Low")) :=
  ⟨by norm_num,
   risk_range_spec oracle0 tableC2 50 (by norm_num) c2Student (by with_unfolding_all decide)⟩

/-- The C2 table plus a third student whose only percentage fails coercion. -/
def tableC10 : Table :=
  ⟨true, false, false, true, true, false, false, false,
   tableC2.rows ++ [⟨some "S3", none, none, some "Math", some "Term 1", none, none, none, none⟩]⟩

/-- The head of the risk output on `tableC10`. -/
def c10Student : RStudent := (computeRiskScores oracle0 tableC10 50).students.headI

/-- C10 witness: S3 has only invalid percentages and the surviving output
student is not S3. -/
theorem risk_skip_invalid_spec_witness :
    c10Student ∈ (computeRiskScores oracle0 tableC10 50).students ∧
    c10Student.student_id ≠ "S3" :=
  ⟨by with_unfolding_all decide,
   (risk_skip_invalid_spec oracle0 tableC10 50).2 "S3" (by decide) c10Student
     (by with_unfolding_all decide)⟩

/-! ## stats.py — compute_subject_stats -/

/-- pandas `Series.quantile(p)` with linear interpolation (non-empty input). -/
def qQuantile (p : ℚ) (l : List ℚ) : ℚ :=
  let s := List.insertionSort (fun a b : ℚ => a ≤ b) l
  let n := l.length
  let pos := p * ((n - 1 : ℕ) : ℚ)
  let i := (⌊pos⌋).toNat
  let frac := pos - (i : ℚ)
  if i + 1 < n then s.getD i 0 + frac * (s.getD (i + 1) 0 - s.getD i 0) else s.getD i 0

/-- The `distribution` sub-dict of one subject entry. -/
structure SubjDist where
  q1 : Option PyF
  q3 : Option PyF
  iqr : Option PyF
deriving DecidableEq, Repr

/-- One entry of the `subjects` list. -/
structure SubjectRow where
  subject : String
  mean : Option PyF
  median : Option PyF
  std : Option PyF
  min : Option PyF
  max : Option PyF
  pass_rate : Option PyF
  fail_rate : Option PyF
  pass_count : ℕ
  fail_count : ℕ
  count : ℕ
  distribution : SubjDist
deriving DecidableEq, Repr

/-- Sort key `x["mean"] or 0` (None — and falsy 0.0 — become 0). -/
def meanKey : Option PyF → ℚ
  | some (.fin q) => q
  | _ => 0

/-- Minimum of a non-empty rational list. -/
def qMin (l : List ℚ) : ℚ := l.foldr min (l.headI)

/-- Maximum of a non-empty rational list. -/
def qMax (l : List ℚ) : ℚ := l.foldr max (l.headI)

/-- Build one subjects-list entry from a non-empty percentage list. -/
def mkSubjectRow (o : Oracles) (pm : ℚ) (subj : String) (pct : List ℚ) : SubjectRow :=
  ⟨subj,
   safeFloat2 (pfMean pct),
   safeFloat2 (pfMedian pct),
   safeFloat2 (pfStd o pct),
   safeFloat2 (.fin (qMin pct)),
   safeFloat2 (.fin (qMax pct)),
   safeFloat2 (.fin (((pct.filter (fun p => pm ≤ p)).length : ℚ) / pct.length * 100)),
   safeFloat2 (.fin (((pct.filter (fun p => p < pm)).length : ℚ) / pct.length * 100)),
   (pct.filter (fun p => pm ≤ p)).length,
   (pct.filter (fun p => p < pm)).length,
   pct.length,
   ⟨safeFloat2 (.fin (qQuantile (1/4) pct)),
    safeFloat2 (.fin (qQuantile (3/4) pct)),
    safeFloat2 (.fin (qQuantile (3/4) pct - qQuantile (1/4) pct))⟩⟩

/-- The `subjects` list: one entry per subject with at least one valid
percentage, sorted descending by mean. -/
def subjectsData (o : Oracles) (t : Table) (pm : ℚ) : List SubjectRow :=
  List.insertionSort (fun a b => meanKey b.mean ≤ meanKey a.mean)
    ((groupKeys (t.rows.map (·.subject))).filterMap (fun s =>
      let pct := rowsPct (t.rows.filter (fun r => r.subject = some s))
      if pct.isEmpty then none else some (mkSubjectRow o pm s pct)))

/-- One cell of the student × subject pivot table (mean aggregation). -/
def pivotCell (t : Table) (stu subj : String) : Option ℚ :=
  let vals := rowsPct (t.rows.filter
    (fun r => cellMatch (studentCell t r) (some stu) && r.subject = some subj))
  if vals.isEmpty then none else some (qMean vals)

/-- Columns of the pivot (subjects with at least one valid cell; pivot_table
drops all-NaN columns). -/
def pivotCols (t : Table) : List String :=
  (groupKeys (t.rows.map (·.subject))).filter (fun s =>
    t.rows.any (fun r =>
      (studentCell t r).isSome && r.subject = some s && r.pct.isSome))

/-- Index of the pivot (students with at least one valid cell). -/
def pivotIndex (t : Table) : List String :=
  (groupKeys (t.rows.map (studentCell t))).filter (fun u =>
    t.rows.any (fun r =>
      cellMatch (studentCell t r) (some u) && r.subject.isSome && r.pct.isSome))

/-- `pivot[[a, b]].dropna()`: the common valid (a, b) cell pairs. -/
def commonPts (t : Table) (a b : String) : List (ℚ × ℚ) :=
  (pivotIndex t).filterMap (fun u =>
    match pivotCell t u a, pivotCell t u b with
    | some x, some y => some (x, y)
    | _, _ => none)

/-- scipy `pearsonr` statistic `r = Σ dx·dy / sqrt(Σ dx² · Σ dy²)` (NaN for a
constant input, as scipy warns-and-returns-NaN). -/
def pearsonR (o : Oracles) (pts : List (ℚ × ℚ)) : PyF :=
  let xs := pts.map (fun p => p.1)
  let ys := pts.map (fun p => p.2)
  let num := (pts.map (fun p => (p.1 - qMean xs) * (p.2 - qMean ys))).sum
  let den := sqDevSum (qMean xs) xs * sqDevSum (qMean ys) ys
  if den = 0 then .nan else pyDiv num (o.sqrt den)

/-- pandas `DataFrame.corr` entry (min_periods 1: NaN below two points). -/
def pandasCorrVal (o : Oracles) (pts : List (ℚ × ℚ)) : PyF :=
  if pts.length < 2 then .nan else pearsonR o pts

/-- One entry of `correlation_matrix["pairs"]`. -/
structure CorrPair where
  subject_a : String
  subject_b : String
  r : Option PyF
  p_value : Option PyF
deriving DecidableEq, Repr

instance : Inhabited CorrPair := ⟨⟨"", "", none, none⟩⟩

/-- The non-empty `correlation_matrix` dict. -/
structure CorrMatrix where
  pairs : List CorrPair
  matrix : List (String × List (String × Option PyF))
deriving DecidableEq, Repr

/-- One iteration of the `pairs` double loop: emit the (i, j) pair when
i < j and at least 3 students share both subjects. -/
def corrPairAt (o : Oracles) (t : Table) (i j : ℕ) : Option CorrPair :=
  if i < j then
    if 3 ≤ (commonPts t ((pivotCols t).getD i "") ((pivotCols t).getD j "")).length then
      some ⟨(pivotCols t).getD i "", (pivotCols t).getD j "",
        safeFloat2 (pearsonR o
          (commonPts t ((pivotCols t).getD i "") ((pivotCols t).getD j ""))),
        safeFloat2 (o.pearsonP
          (commonPts t ((pivotCols t).getD i "") ((pivotCols t).getD j "")))⟩
    else none
  else none

/-- The `pairs` double loop. -/
def corrPairs (o : Oracles) (t : Table) : List CorrPair :=
  (List.range (pivotCols t).length).flatMap (fun i =>
    (List.range (pivotCols t).length).filterMap (corrPairAt o t i))

/-- `pivot.corr().round(3).to_dict()` (every column pair is a key; the final
`_sanitize` nulls the NaN entries). -/
def corrMatrixDict (o : Oracles) (t : Table) :
    List (String × List (String × Option PyF)) :=
  let cols := pivotCols t
  cols.map (fun a => (a, cols.map (fun b =>
    (b, sanOpt (some (pfRound 3 (pandasCorrVal o (commonPts t a b))))))))

/-- Return value of compute_subject_stats (`none` models the empty `{}`
correlation matrix). -/
structure SubjectStatsOut where
  subjects : List SubjectRow
  correlation_matrix : Option CorrMatrix
deriving DecidableEq, Repr

/-- `_sanitize` on one subject entry. -/
def sanitizeSubjectRow (x : SubjectRow) : SubjectRow :=
  { x with
    mean := sanOpt x.mean, median := sanOpt x.median, std := sanOpt x.std,
    min := sanOpt x.min, max := sanOpt x.max,
    pass_rate := sanOpt x.pass_rate, fail_rate := sanOpt x.fail_rate,
    distribution := ⟨sanOpt x.distribution.q1, sanOpt x.distribution.q3,
      sanOpt x.distribution.iqr⟩ }

/-- `_sanitize` on one pairs entry. -/
def sanitizeCorrPair (x : CorrPair) : CorrPair :=
  { x with r := sanOpt x.r, p_value := sanOpt x.p_value }

/-- stats.compute_subject_stats. -/
def computeSubjectStats (o : Oracles) (t : Table) (pm : ℚ) : SubjectStatsOut :=
  if t.hasSubject = false then ⟨[], none⟩ else
  ⟨(subjectsData o t pm).map sanitizeSubjectRow,
   if t.hasStudentCol && decide (2 ≤ (pivotCols t).length) then
     some ⟨(corrPairs o t).map sanitizeCorrPair,
           (corrMatrixDict o t).map (fun p => (p.1, p.2.map (fun q => (q.1, sanOpt q.2))))⟩
   else none⟩

/-- C3 (amended): every entry of `correlation_matrix["pairs"]` comes from a
subject pair with at least 3 students having both subjects recorded; pairs
with fewer shared students are excluded from `pairs` (but the raw
`pivot.corr()` `matrix` dict still keys every column pair — see the
counterexample). -/
theorem subject_corr_spec (o : Oracles) (t : Table) (pm : ℚ) :
    ∀ cm, (computeSubjectStats o t pm).correlation_matrix = some cm →
      ∀ pr ∈ cm.pairs, 3 ≤ (commonPts t pr.subject_a pr.subject_b).length := by
  intro cm hcm pr hpr
  unfold computeSubjectStats at hcm
  split at hcm
  · cases hcm
  · split at hcm
    · injection hcm with h
      subst h
      simp only [CorrMatrix.pairs] at hpr
      obtain ⟨pr₀, hpr₀, rfl⟩ := List.mem_map.mp hpr
      unfold corrPairs at hpr₀
      obtain ⟨i, -, hi⟩ := List.mem_flatMap.mp hpr₀
      obtain ⟨j, -, hj⟩ := List.mem_filterMap.mp hi
      unfold corrPairAt at hj
      split at hj
      · split at hj
        · rename_i hvalid
          injection hj with hj
          subst hj
          simpa using hvalid
        · cases hj
      · cases hj
    · cases hcm

/-- Two students sharing two subjects (2 shared students per pair). -/
def tableC3 : Table :=
  ⟨true, false, false, true, false, false, false, false,
   [⟨some "S1", none, none, some "A", none, none, none, none, some 10⟩,
    ⟨some "S1", none, none, some "B", none, none, none, none, some 20⟩,
    ⟨some "S2", none, none, some "A", none, none, none, none, some 30⟩,
    ⟨some "S2", none, none, some "B", none, none, none, none, some 40⟩]⟩

/-- On `tableC3` the only external call is `sqrt 40000`; this oracle returns
its exact value 200, so the matrix entries are the true pandas values. -/
def oracleC3 : Oracles :=
  ⟨fun _ => 200, fun _ _ => .fin 0, fun _ _ => .fin 0,
   fun _ => .fin 0, fun _ => .fin 0, fun _ => .fin 0⟩

/-- C3 counterexample: with only 2 shared students the (A, B) pair is absent
from `pairs` but **does** appear in the `matrix` part of the
correlation_matrix structure, with correlation 1.0. -/
theorem corr_matrix_pair_with_2_shared :
    (computeSubjectStats oracleC3 tableC3 50).correlation_matrix.map
      (fun cm => cm.pairs) = some [] ∧
    (computeSubjectStats oracleC3 tableC3 50).correlation_matrix.map
      (fun cm => cm.matrix) =
      some [("A", [("A", some (.fin 1)), ("B", some (.fin 1))]),
            ("B", [("A", some (.fin 1)), ("B", some (.fin 1))])] ∧
    (commonPts tableC3 "A" "B").length = 2 := by
  refine ⟨?_, ?_, ?_⟩ <;> with_unfolding_all decide

/-- Three students sharing two subjects (3 shared students per pair). -/
def tableC3w : Table :=
  ⟨true, false, false, true, false, false, false, false,
   [⟨some "S1", none, none, some "A", none, none, none, none, some 10⟩,
    ⟨some "S1", none, none, some "B", none, none, none, none, some 20⟩,
    ⟨some "S2", none, none, some "A", none, none, none, none, some 30⟩,
    ⟨some "S2", none, none, some "B", none, none, none, none, some 40⟩,
    ⟨some "S3", none, none, some "A", none, none, none, none, some 50⟩,
    ⟨some "S3", none, none, some "B", none, none, none, none, some 60⟩]⟩

/-- The correlation matrix produced on `tableC3w`. -/
def c3Matrix : CorrMatrix :=
  ((computeSubjectStats oracle0 tableC3w 50).correlation_matrix).getD ⟨[], []⟩

/-- The single pair produced on `tableC3w`. -/
def c3Pair : CorrPair := c3Matrix.pairs.headI

/-- C3 witness: on a table with 3 shared students, a pair is emitted and the
theorem applies to it. -/
theorem subject_corr_spec_witness :
    (computeSubjectStats oracle0 tableC3w 50).correlation_matrix = some c3Matrix ∧
    c3Pair ∈ c3Matrix.pairs ∧
    3 ≤ (commonPts tableC3w c3Pair.subject_a c3Pair.subject_b).length :=
  ⟨by with_unfolding_all decide, by with_unfolding_all decide,
   subject_corr_spec oracle0 tableC3w 50 c3Matrix (by with_unfolding_all decide)
     c3Pair (by with_unfolding_all decide)⟩

/-! ## stats.py — compute_student_profile

The optional `school` basic-info key is a passthrough string copy of a
column this row model does not carry; it is omitted (no logic, no floats).
The model's totality is the no-exception guarantee: not-found is the `none`
value, never a fault. -/

/-- One record of `all_scores`. -/
structure ScoreRec where
  percentage : Option PyF
  subject : Option String
  term : Option String
  pass_fail : String
deriving DecidableEq, Repr

/-- One entry of the profile's `term_trends` (the per-subject means are the
dynamic extra keys of the dict). -/
structure TermTrendEntry where
  term : String
  mean : Option PyF
  subjectMeans : List (String × Option PyF)
deriving DecidableEq, Repr

/-- Return value of compute_student_profile. -/
structure Profile where
  student_id : String
  name : String
  gender : Option String
  cls : Option String
  region : Option String
  overall_mean : Option PyF
  overall_median : Option PyF
  pass_count : ℕ
  fail_count : ℕ
  subject_scores : Option (List (String × Option PyF))
  term_trends : Option (List TermTrendEntry)
  class_rank : Option (Option ℕ)
  class_total : Option ℕ
  school_rank : Option ℕ
  school_total : Option ℕ
  all_scores : List ScoreRec
deriving DecidableEq, Repr

/-- `str(row[student_col])` — the astype(str) matching key of a row. -/
def rowKeyStr (t : Table) (r : Row) : String := strCell (studentCell t r)

/-- `"Pass" if rec["percentage"] and rec["percentage"] >= pass_mark` (None
and 0.0 are falsy). -/
def passFailOf (p : Option PyF) (pm : ℚ) : String :=
  match p with
  | some (.fin q) => if q ≠ 0 ∧ pm ≤ q then "Pass" else "Fail"
  | _ => "Fail"

/-- Rank of `sid` in the 1-based descending-mean order of a row subset. -/
def rankIn (t : Table) (rows : List Row) (sid : String) : Option ℕ × ℕ :=
  let ranked := List.insertionSort (fun a b => meanDescLe a b = true)
    ((groupKeys (rows.map (studentCell t))).map
      (fun k => (k, pfMean (rowsPct (rows.filter
        (fun r => cellMatch (studentCell t r) (some k)))))))
  let keys := ranked.map (fun p => p.1)
  ((keys.findIdx? (fun k => k = sid)).map (fun i => i + 1), keys.length)

/-- `_sanitize` on the profile. -/
def sanitizeProfile (p : Profile) : Profile :=
  { p with
    overall_mean := sanOpt p.overall_mean
    overall_median := sanOpt p.overall_median
    subject_scores := p.subject_scores.map (List.map (fun q => (q.1, sanOpt q.2)))
    term_trends := p.term_trends.map (List.map (fun e =>
      ⟨e.term, sanOpt e.mean, e.subjectMeans.map (fun q => (q.1, sanOpt q.2))⟩))
    all_scores := p.all_scores.map (fun r => { r with percentage := sanOpt r.percentage }) }

/-- stats.compute_student_profile (`none` for no student column or an
unmatched student_id). -/
def computeStudentProfile (o : Oracles) (t : Table) (sid : String) (pm : ℚ) :
    Option Profile :=
  if t.hasStudentCol = false then none else
  let sdf := t.rows.filter (fun r => rowKeyStr t r = sid)
  if sdf.isEmpty then none else
  let firstRow := sdf.headI
  let pct := rowsPct sdf
  some (sanitizeProfile
  { student_id := sid
    name := if t.hasName then strCell firstRow.name else sid
    gender := if t.hasGender then some (strCell firstRow.gender) else none
    cls := if t.hasCls then some (strCell firstRow.cls) else none
    region := if t.hasRegion then some (strCell firstRow.region) else none
    overall_mean := safeFloat2 (pfMean pct)
    overall_median := safeFloat2 (pfMedian pct)
    pass_count := (pct.filter (fun p => pm ≤ p)).length
    fail_count := (pct.filter (fun p => p < pm)).length
    subject_scores :=
      if t.hasSubject then
        some ((groupKeys (sdf.map (·.subject))).map (fun s =>
          (s, safeFloat2 (pfMean (rowsPct (sdf.filter (fun r => r.subject = some s)))))))
      else none
    term_trends :=
      if t.hasTerm && t.hasSubject then
        some ((groupKeys (sdf.map (·.term))).map (fun tm =>
          let tgroup := sdf.filter (fun r => r.term = some tm)
          ⟨tm, safeFloat2 (pfMean (rowsPct tgroup)),
           (groupKeys (tgroup.map (·.subject))).map (fun s =>
             (s, safeFloat2 (pfMean (rowsPct (tgroup.filter
               (fun r => r.subject = some s))))))⟩))
      else none
    class_rank :=
      if t.hasCls then
        some (rankIn t (t.rows.filter
          (fun r => strCell r.cls = strCell firstRow.cls)) sid).1
      else none
    class_total :=
      if t.hasCls then
        some (rankIn t (t.rows.filter
          (fun r => strCell r.cls = strCell firstRow.cls)) sid).2
      else none
    school_rank := (rankIn t t.rows sid).1
    school_total := some (rankIn t t.rows sid).2
    all_scores := sdf.map (fun r =>
      let p : Option PyF := safeFloat2 (match r.pct with
        | some q => .fin q
        | none => .nan)
      ⟨p, if t.hasSubject then some (strCell r.subject) else none,
       if t.hasTerm then some (strCell r.term) else none,
       passFailOf p pm⟩) })

/-- C9: an unmatched student_id (or an unidentifiable student column) yields
the distinguishable not-found value `None`, never an exception (the model is
a total function). -/
theorem profile_not_found_spec (o : Oracles) (t : Table) (sid : String) (pm : ℚ) :
    (t.hasStudentCol = false → computeStudentProfile o t sid pm = none) ∧
    ((∀ r ∈ t.rows, rowKeyStr t r ≠ sid) → computeStudentProfile o t sid pm = none) := by
  constructor
  · intro h
    unfold computeStudentProfile
    rw [if_pos h]
  · intro h
    unfold computeStudentProfile
    by_cases hc : t.hasStudentCol = false
    · rw [if_pos hc]
    · rw [if_neg hc]
      have : t.rows.filter (fun r => rowKeyStr t r = sid) = [] := by
        apply List.filter_eq_nil.mpr
        intro r hr
        simpa using h r hr
      simp only [this]
      rfl

/-- C9 witness: `compute_student_profile(table, "UNKNOWN")` is `None`. -/
theorem profile_not_found_spec_witness :
    (∀ r ∈ tableC2.rows, rowKeyStr tableC2 r ≠ "UNKNOWN") ∧
    computeStudentProfile oracle0 tableC2 "UNKNOWN" 50 = none :=
  ⟨by decide,
   (profile_not_found_spec oracle0 tableC2 "UNKNOWN" 50).2 (by decide)⟩

/-! ## kenya_grading.py — universal grades, and stats.py — compute_term_comparison -/

/-- `_clamp_score`: clamp to [0, 100]. -/
def clampScore (q : ℚ) : ℚ := max 0 (min 100 q)

/-- `get_grade_label` over the universal A–F bands ("-" for no score). -/
def gradeLabel : Option ℚ → String
  | none => "-"
  | some s =>
    let v := clampScore s
    if 80 ≤ v then "A" else if 70 ≤ v then "B" else if 60 ≤ v then "C"
    else if 50 ≤ v then "D" else if 40 ≤ v then "E" else "F"

/-- `_canonical_term`: strip, blank/"nan" to NaN, first digit run to
"Term n", else the raw stripped... (the code returns the *unstripped* raw
only when no digits: it returns `raw`, the stripped value). -/
def canonicalTerm : Option String → Option String
  | none => none
  | some v =>
    let raw := pyStrip v
    if raw = "" || pyLower raw = "nan" then none
    else match firstNumToken raw with
      | some n => some ("Term " ++ toString n)
      | none => some raw

/-- The frame after `df[term_col] = df[term_col].apply(_canonical_term)`. -/
def canonTable (t : Table) : Table :=
  { t with rows := t.rows.map (fun r => { r with term := canonicalTerm r.term }) }

/-- `sort_terms(df[term_col].dropna().unique())`. -/
def sortedTermList (t : Table) : List String :=
  sortTerms (uniq (t.rows.filterMap (fun r => r.term)))

/-- One `school_by_term` entry. -/
structure SchoolTermRow where
  term : String
  mean : Option PyF
  median : Option PyF
  pass_rate : Option PyF
  pass_count : ℕ
  fail_count : ℕ
  student_count : ℕ
  grade : String
  delta : Option PyF
  trend : String
deriving DecidableEq, Repr

/-- One school row before the delta/trend pass. -/
def mkSchoolTermRow (t : Table) (pm : ℚ) (tm : String) : SchoolTermRow :=
  let tdf := t.rows.filter (fun r => strCell r.term = tm)
  let pct := rowsPct tdf
  ⟨tm, safeFloat2 (pfMean pct), safeFloat2 (pfMedian pct),
   if 0 < pct.length then
     safeFloat2 (.fin (((pct.filter (fun p => pm ≤ p)).length : ℚ) / pct.length * 100))
   else some (.fin 0),
   (pct.filter (fun p => pm ≤ p)).length,
   (pct.filter (fun p => p < pm)).length,
   if t.hasStudentCol then nunique (tdf.map (studentCell t)) else tdf.length,
   if 0 < pct.length then gradeLabel (some (qMean pct)) else "—",
   none, ""⟩

/-- The school delta/trend pass: first row baseline, null means "unknown",
else `round(curr - prev, 2)` with the ±1 classification on the raw means. -/
def schoolTrendAt (prev : Option (Option PyF)) (row : SchoolTermRow) : SchoolTermRow :=
  match prev with
  | none => { row with delta := none, trend := "baseline" }
  | some p =>
    match p, row.mean with
    | some (.fin pv), some (.fin cv) =>
      { row with delta := some (.fin (roundTo 2 (cv - pv)))
                 trend := if pv + 1 < cv then "improving"
                          else if cv < pv - 1 then "declining" else "stable" }
    | _, _ => { row with delta := none, trend := "unknown" }

/-- `school_by_term` with the trend pass applied. -/
def schoolByTerm (t : Table) (pm : ℚ) : List SchoolTermRow :=
  let base := (sortedTermList t).map (mkSchoolTermRow t pm)
  (base.zip ((none : Option (Option PyF)) :: base.map (fun r => some r.mean))).map
    (fun p => schoolTrendAt p.2 p.1)

/-- `delta = round(mean - prev_mean, 2)` when both exist. -/
def deltaOf (prev mean : Option PyF) : Option PyF :=
  match mean, prev with
  | some (.fin m), some (.fin p) => some (.fin (roundTo 2 (m - p)))
  | _, _ => none

/-- `"improving" if delta and delta > 1 else "declining" if delta and
delta < -1 else "stable" if delta is not None else "baseline"`
(a 0.0 delta is falsy, landing on "stable"). -/
def cellTrend : Option PyF → String
  | some (.fin d) => if 1 < d then "improving" else if d < -1 then "declining" else "stable"
  | some _ => "stable"
  | none => "baseline"

/-- One per-term cell of `subjects_by_term`. -/
structure TermCell where
  mean : Option PyF
  pass_rate : Option PyF
  grade : String
  delta : Option PyF
  trend : String
deriving DecidableEq, Repr

/-- One subject cell before the delta/trend assignment. -/
def mkSubjCell (pm : ℚ) (sdf : List Row) (tm : String) : String × TermCell :=
  let tdf := sdf.filter (fun r => strCell r.term = tm)
  let pct := rowsPct tdf
  let mean := safeFloat2 (pfMean pct)
  (tm, ⟨mean,
    if 0 < pct.length then
      safeFloat2 (.fin (((pct.filter (fun p => pm ≤ p)).length : ℚ) / pct.length * 100))
    else some (.fin 0),
    (match mean with | some (.fin m) => gradeLabel (some m) | _ => "—"),
    none, ""⟩)

/-- Thread the previous term's mean through the cells (prev_mean starts as
None, so a missing previous mean gives delta None / trend "baseline"). -/
def cellsWithTrend (base : List (String × TermCell)) : List (String × TermCell) :=
  (base.zip ((none : Option PyF) :: base.map (fun c => c.2.mean))).map (fun p =>
    let d := deltaOf p.2 p.1.2.mean
    (p.1.1, { p.1.2 with delta := d, trend := cellTrend d }))

/-- One `subjects_by_term` row. -/
structure SubjByTerm where
  subject : String
  terms : List (String × TermCell)
deriving DecidableEq, Repr

/-- `subjects_by_term`. -/
def subjectsByTerm (t : Table) (pm : ℚ) : List SubjByTerm :=
  (groupKeys (t.rows.map (·.subject))).map (fun subj =>
    let sdf := t.rows.filter (fun r => strCell r.subject = subj)
    ⟨subj, cellsWithTrend ((sortedTermList t).map (mkSubjCell pm sdf))⟩)

/-- One per-term cell of `students_by_term`. -/
structure StuTermCell where
  mean : Option PyF
  grade : String
  delta : Option PyF
  trend : String
  pass_count : ℕ
  fail_count : ℕ
deriving DecidableEq, Repr

/-- One `students_by_term` entry (`totalDelta` is the `_total_delta` key the
top-improvers pass adds to the dict; `rank` is assigned after sorting). -/
structure StuByTerm where
  student_id : String
  name : String
  cls : Option String
  terms : List (String × StuTermCell)
  overall_trend : String
  trend_slope : Option PyF
  rank : ℕ
  totalDelta : Option ℚ
deriving DecidableEq, Repr

/-- One student cell before the delta/trend assignment. -/
def mkStuCell (pm : ℚ) (stdf : List Row) (tm : String) : String × StuTermCell :=
  let tdf := stdf.filter (fun r => strCell r.term = tm)
  let pct := rowsPct tdf
  let mean := safeFloat2 (pfMean pct)
  (tm, ⟨mean,
    (match mean with | some (.fin m) => gradeLabel (some m) | _ => "—"),
    none, "",
    (pct.filter (fun p => pm ≤ p)).length,
    (pct.filter (fun p => p < pm)).length⟩)

/-- Delta/trend assignment for student cells. -/
def stuCellsWithTrend (base : List (String × StuTermCell)) : List (String × StuTermCell) :=
  (base.zip ((none : Option PyF) :: base.map (fun c => c.2.mean))).map (fun p =>
    let d := deltaOf p.2 p.1.2.mean
    (p.1.1, { p.1.2 with delta := d, trend := cellTrend d }))

/-- The display-name fallback: stripped name unless blank or "nan". -/
def stuDisplayName (t : Table) (firstRow : Row) (sid : String) : String :=
  if t.hasName then
    let d := pyStrip (strCell firstRow.name)
    if d = "" || pyLower d = "nan" then sid else d
  else sid

/-- The non-null means collected for the overall polyfit slope. -/
def stuTermMeans (cells : List (String × StuTermCell)) : List ℚ :=
  cells.filterMap (fun c => match c.2.mean with | some (.fin m) => some m | _ => none)

/-- One `students_by_term` entry before sorting/rank/movers. -/
def mkStuByTerm (t : Table) (pm : ℚ) (terms : List String) (sid : String) : StuByTerm :=
  let stdf := t.rows.filter (fun r => rowKeyStr t r = sid)
  let firstRow := stdf.headI
  let cells := stuCellsWithTrend (terms.map (mkStuCell pm stdf))
  let means := stuTermMeans cells
  let slope := lsSlope means
  ⟨sid, stuDisplayName t firstRow sid,
   if t.hasCls then some (strCell firstRow.cls) else none,
   cells,
   if 2 ≤ means.length then
     (if (1 : ℚ)/2 < slope then "improving"
      else if slope < -(1/2) then "declining" else "stable")
   else "insufficient_data",
   if 2 ≤ means.length then some (.fin (roundTo 3 slope)) else none,
   0,
   if 2 ≤ terms.length then
     match (cells.find? (fun c => c.1 = terms.headI)).map (fun c => c.2.mean),
           (cells.find? (fun c => c.1 = terms.getLastD "")).map (fun c => c.2.mean) with
     | some (some (PyF.fin a)), some (some (PyF.fin b)) => some (roundTo 2 (b - a))
     | _, _ => none
   else none⟩

/-- Sort key `s["terms"].get(last_term, {}).get("mean") or 0`. -/
def lastTermKey (last : String) (s : StuByTerm) : ℚ :=
  meanKey (((s.terms.find? (fun c => c.1 = last)).map (fun c => c.2.mean)).getD none)

/-- `students_by_term`: built per student, sorted by last-term mean
descending, then ranked 1.. . -/
def studentsByTerm (t : Table) (pm : ℚ) : List StuByTerm :=
  let terms := sortedTermList t
  let base := (uniq (t.rows.filterMap (studentCell t))).map (mkStuByTerm t pm terms)
  let sorted := match terms.getLast? with
    | some last => List.insertionSort (fun a b => lastTermKey last b ≤ lastTermKey last a) base
    | none => base
  (sorted.zip (List.range sorted.length)).map (fun p => { p.1 with rank := p.2 + 1 })

/-- One cell of `class_by_term`. -/
structure ClsTermCell where
  mean : Option PyF
  pass_rate : Option PyF
  grade : String
deriving DecidableEq, Repr

/-- One `class_by_term` row. -/
structure ClsByTerm where
  cls : String
  terms : List (String × ClsTermCell)
deriving DecidableEq, Repr

/-- `class_by_term`. -/
def classByTerm (t : Table) (pm : ℚ) : List ClsByTerm :=
  (groupKeys (t.rows.map (·.cls))).map (fun c =>
    let cdf := t.rows.filter (fun r => strCell r.cls = c)
    ⟨c, (sortedTermList t).map (fun tm =>
      let tdf := cdf.filter (fun r => strCell r.term = tm)
      let pct := rowsPct tdf
      (tm, ⟨safeFloat2 (pfMean pct),
        if 0 < pct.length then
          safeFloat2 (.fin (((pct.filter (fun p => pm ≤ p)).length : ℚ) / pct.length * 100))
        else some (.fin 0),
        if 0 < pct.length then gradeLabel (some (roundTo 2 (qMean pct))) else "—"⟩))⟩)

/-- One `top_improvers` / `top_decliners` entry. -/
structure MoverEntry where
  name : String
  student_id : String
  delta : ℚ
deriving DecidableEq, Repr

/-- Students carrying a `_total_delta`, sorted by it descending (stable). -/
def moversRanked (students : List StuByTerm) : List (StuByTerm × ℚ) :=
  List.insertionSort (fun a b => b.2 ≤ a.2)
    (students.filterMap (fun s => s.totalDelta.map (fun d => (s, d))))

/-- Substring containment over characters (Python `in`). -/
def containsSub (pat : List Char) : List Char → Bool
  | [] => pat.isEmpty
  | a :: as => pat.isPrefixOf (a :: as) || containsSub pat as

/-- Python `pat in s`. -/
def strContains (s pat : String) : Bool := containsSub pat.data s.data

/-- `_exam_key` phase: opener 1, cat/mid 2, end/final 3, else 4. -/
def examPhase (s : String) : ℕ :=
  if ["opener", "opening", "baseline", "entry"].any (fun k => strContains s k) then 1
  else if ["cat", "continuous", "mid", "midterm"].any (fun k => strContains s k) then 2
  else if ["end", "final", "eot"].any (fun k => strContains s k) then 3
  else 4

/-- The normalized label `str(label).strip().lower()` used by `_exam_key`. -/
def examNorm (label : String) : String := pyLower (pyStrip label)

/-- `_exam_key` first-number component (0 when no digits). -/
def examNum (s : String) : ℕ := (firstNumAux s.data none).getD 0

/-- Lexicographic ≤ on the `_exam_key` tuples (phase, first number, string). -/
def examKeyLe (a b : String) : Bool :=
  let sa := examNorm a
  let sb := examNorm b
  if examPhase sa ≠ examPhase sb then decide (examPhase sa < examPhase sb)
  else if examNum sa ≠ examNum sb then decide (examNum sa < examNum sb)
  else pyStrLe sa sb

/-- One `exam_timeline` point. -/
structure ExamPoint where
  term : String
  exam : String
  label : String
  mean : Option PyF
  pass_rate : Option PyF
  student_count : ℕ
  grade : String
  delta : Option PyF
  trend : String
deriving DecidableEq, Repr

/-- One timeline point before the delta/trend pass. -/
def mkExamPoint (t : Table) (pm : ℚ) (tm exam : String) : ExamPoint :=
  let tdf := t.rows.filter (fun r => strCell r.term = tm)
  let edf := tdf.filter (fun r => strCell r.exam = exam)
  let pct := rowsPct edf
  ⟨tm, exam, tm ++ " - " ++ exam,
   safeFloat2 (pfMean pct),
   if 0 < pct.length then
     safeFloat2 (.fin (((pct.filter (fun p => pm ≤ p)).length : ℚ) / pct.length * 100))
   else some (.fin 0),
   if t.hasStudentCol then nunique (edf.map (studentCell t)) else edf.length,
   if 0 < pct.length then gradeLabel (some (roundTo 2 (qMean pct))) else "—",
   none, ""⟩

/-- The timeline delta/trend pass (first point baseline, null means
"unknown", classification on the rounded delta). -/
def examTrendAt (prev : Option (Option PyF)) (p : ExamPoint) : ExamPoint :=
  match prev with
  | none => { p with delta := none, trend := "baseline" }
  | some pv =>
    match pv, p.mean with
    | some (.fin a), some (.fin b) =>
      { p with delta := some (.fin (roundTo 2 (b - a)))
               trend := if 1 < roundTo 2 (b - a) then "improving"
                        else if roundTo 2 (b - a) < -1 then "declining" else "stable" }
    | _, _ => { p with delta := none, trend := "unknown" }

/-- `exam_timeline` (empty without an exam column). -/
def examTimeline (t : Table) (pm : ℚ) : List ExamPoint :=
  if t.hasExam then
    let base := (sortedTermList t).flatMap (fun tm =>
      let tdf := t.rows.filter (fun r => strCell r.term = tm)
      (List.insertionSort (fun a b => examKeyLe a b = true)
        (uniq (tdf.filterMap (fun r => r.exam)))).map (mkExamPoint t pm tm))
    (base.zip ((none : Option (Option PyF)) :: base.map (fun p => some p.mean))).map
      (fun p => examTrendAt p.2 p.1)
  else []

/-- The `early_performance` summary. -/
structure Early where
  baseline_label : Option String
  baseline_mean : Option PyF
  latest_label : Option String
  latest_mean : Option PyF
  delta : Option PyF
  trend : String
deriving DecidableEq, Repr

/-- Early-performance comparison from two endpoint (label, mean) pairs. -/
def earlyFromPoints (bl : String) (bm : Option PyF) (ll : String) (lm : Option PyF) : Early :=
  let delta : Option PyF := match bm, lm with
    | some (.fin a), some (.fin b) => some (.fin (roundTo 2 (b - a)))
    | _, _ => none
  ⟨some bl, bm, some ll, lm, delta,
   match delta with
   | some (.fin d) => if 1 < d then "improving" else if d < -1 then "declining" else "stable"
   | some _ => "stable"
   | none => "insufficient_data"⟩

instance : Inhabited ExamPoint := ⟨⟨"", "", "", none, none, 0, "", none, ""⟩⟩

instance : Inhabited SchoolTermRow := ⟨⟨"", none, none, none, 0, 0, 0, "", none, ""⟩⟩

/-- `early_performance`: exam endpoints if ≥2 points, else term endpoints,
else the insufficient_data default. -/
def earlyPerformance (t : Table) (pm : ℚ) : Early :=
  let etl := examTimeline t pm
  let sbt := schoolByTerm t pm
  if 2 ≤ etl.length then
    earlyFromPoints etl.headI.label etl.headI.mean (etl.getLastD etl.headI).label
      (etl.getLastD etl.headI).mean
  else if 2 ≤ sbt.length then
    earlyFromPoints sbt.headI.term sbt.headI.mean (sbt.getLastD sbt.headI).term
      (sbt.getLastD sbt.headI).mean
  else ⟨none, none, none, none, none, "insufficient_data"⟩

/-- The full compute_term_comparison payload (term column present). -/
structure TermCompData where
  terms : List String
  school_by_term : List SchoolTermRow
  subjects_by_term : List SubjByTerm
  subject_term_matrix : List (String × List (String × Option PyF))
  students_by_term : List StuByTerm
  class_by_term : List ClsByTerm
  top_improvers : List MoverEntry
  top_decliners : List MoverEntry
  improved : ℕ
  declined : ℕ
  stable : ℕ
  exam_timeline : List ExamPoint
  early_performance : Early
deriving DecidableEq, Repr

/-- Return value of compute_term_comparison (`err` is the no-term-column
error dict with its empty terms list). -/
inductive TermCompOut where
  | err
  | ok (d : TermCompData)
deriving DecidableEq, Repr

/-- stats.compute_term_comparison (all floats are produced through
`_safe_float`/rounding of finite values, and the final `_sanitize` is the
identity on them). -/
def computeTermComparison (o : Oracles) (t : Table) (pm : ℚ) : TermCompOut :=
  if t.hasTerm = false then .err else
  let tC := canonTable t
  let sbt := if t.hasSubject then subjectsByTerm tC pm else []
  let students := if t.hasStudentCol then studentsByTerm tC pm else []
  let ranked := moversRanked students
  let withDelta : List ℚ := students.filterMap (fun s => s.totalDelta)
  .ok
  { terms := sortedTermList tC
    school_by_term := schoolByTerm tC pm
    subjects_by_term := sbt
    subject_term_matrix := sbt.map (fun row =>
      (row.subject, row.terms.map (fun c => (c.1, c.2.mean))))
    students_by_term := students
    class_by_term := if t.hasCls then classByTerm tC pm else []
    top_improvers :=
      if students.isEmpty = false && decide (2 ≤ (sortedTermList tC).length) then
        (ranked.take 5).map (fun p => ⟨p.1.name, p.1.student_id, p.2⟩)
      else []
    top_decliners :=
      if students.isEmpty = false && decide (2 ≤ (sortedTermList tC).length) then
        ((takeLast 5 ranked).reverse).map (fun p => ⟨p.1.name, p.1.student_id, p.2⟩)
      else []
    improved := (withDelta.filter (fun d => 1 < d)).length
    declined := (withDelta.filter (fun d => d < -1)).length
    stable := (withDelta.filter (fun d => -1 ≤ d ∧ d ≤ 1)).length
    exam_timeline := examTimeline tC pm
    early_performance := earlyPerformance tC pm }

/-! ### C8 lemmas -/

theorem roundHE_intCast (k : ℤ) : roundHE (k : ℚ) = k := by
  unfold roundHE
  rw [Int.floor_intCast]
  simp

theorem roundTo_sub_exact (n : ℕ) (x y : ℚ) :
    roundTo n (roundTo n x - roundTo n y) = roundTo n x - roundTo n y := by
  unfold roundTo
  have h : ((roundHE (x * 10 ^ n) : ℚ) / 10 ^ n - (roundHE (y * 10 ^ n) : ℚ) / 10 ^ n) =
      ((roundHE (x * 10 ^ n) - roundHE (y * 10 ^ n) : ℤ) : ℚ) / 10 ^ n := by
    push_cast
    ring
  rw [h]
  have h2 : ((roundHE (x * 10 ^ n) - roundHE (y * 10 ^ n) : ℤ) : ℚ) / 10 ^ n * 10 ^ n =
      ((roundHE (x * 10 ^ n) - roundHE (y * 10 ^ n) : ℤ) : ℚ) := by
    field_simp
  rw [h2, roundHE_intCast]

theorem get?_zip {α β : Type} {l : List α} {m : List β} {i : ℕ} {p : α × β}
    (h : (l.zip m).get? i = some p) : l.get? i = some p.1 ∧ m.get? i = some p.2 := by
  induction l generalizing m i with
  | nil => simp [List.zip] at h
  | cons a as ih =>
    cases m with
    | nil => simp [List.zip] at h
    | cons b bs =>
      cases i with
      | zero =>
        simp only [List.zip_cons_cons, List.get?] at h ⊢
        obtain rfl := Option.some_inj.mp h
        exact ⟨rfl, rfl⟩
      | succ j =>
        simp only [List.zip_cons_cons, List.get?] at h ⊢
        exact ih h

theorem schoolTrendAt_mean (pv : Option (Option PyF)) (b : SchoolTermRow) :
    (schoolTrendAt pv b).mean = b.mean := by
  unfold schoolTrendAt
  cases pv with
  | none => rfl
  | some p =>
    cases p with
    | none => rfl
    | some v =>
      cases v <;> cases hb : b.mean with
      | _ => first
        | rfl
        | (rename_i w; cases w <;> rfl)

theorem mkSchoolTermRow_mean_shape (t : Table) (pm : ℚ) (tm : String) :
    (mkSchoolTermRow t pm tm).mean = none ∨
    ∃ q, (mkSchoolTermRow t pm tm).mean = some (.fin (roundTo 2 q)) := by
  have h : (mkSchoolTermRow t pm tm).mean
      = safeFloat2 (pfMean (rowsPct (t.rows.filter (fun r => strCell r.term = tm)))) := rfl
  rw [h]
  cases pfMean (rowsPct (t.rows.filter (fun r => strCell r.term = tm))) with
  | fin q => exact Or.inr ⟨q, rfl⟩
  | nan => exact Or.inl rfl
  | pinf => exact Or.inl rfl
  | ninf => exact Or.inl rfl

theorem schoolByTerm_spec (t : Table) (pm : ℚ) :
    ∀ i row, (schoolByTerm t pm).get? i = some row →
      (i = 0 → row.delta = none ∧ row.trend = "baseline") ∧
      (∀ j, i = j + 1 → ∀ prev, (schoolByTerm t pm).get? j = some prev →
        (∀ p c, prev.mean = some (.fin p) → row.mean = some (.fin c) →
           row.delta = some (.fin (roundTo 2 (c - p)))) ∧
        (∀ dq, row.delta = some (.fin dq) →
           row.trend = (if 1 < dq then "improving"
                        else if dq < -1 then "declining" else "stable")) ∧
        ((prev.mean = none ∨ row.mean = none) →
           row.delta = none ∧ row.trend = "unknown")) := by
  intro i row h
  simp only [schoolByTerm, List.get?_map] at h
  obtain ⟨pr, hz, hrow⟩ := Option.map_eq_some'.mp h
  obtain ⟨b, pv⟩ := pr
  obtain ⟨hb, hp⟩ := get?_zip hz
  rw [List.get?_map] at hb
  obtain ⟨tmi, htmi, hbmk⟩ := Option.map_eq_some'.mp hb
  have hbmk2 : mkSchoolTermRow t pm tmi = b := hbmk
  constructor
  · rintro rfl
    rw [List.get?_cons_zero] at hp
    have hpv0 : (none : Option (Option PyF)) = pv := Option.some_inj.mp hp
    rw [← hrow]
    show (schoolTrendAt pv b).delta = none ∧ (schoolTrendAt pv b).trend = "baseline"
    rw [← hpv0]
    exact ⟨rfl, rfl⟩
  · rintro j rfl prev hprev
    rw [List.get?_cons_succ, List.get?_map] at hp
    obtain ⟨bj0, hbj0, hpv⟩ := Option.map_eq_some'.mp hp
    rw [List.get?_map] at hbj0
    obtain ⟨tmj, htmj, hbjmk⟩ := Option.map_eq_some'.mp hbj0
    simp only [schoolByTerm, List.get?_map] at hprev
    obtain ⟨prj, hzj, hprevrow⟩ := Option.map_eq_some'.mp hprev
    obtain ⟨prjb, prjpv⟩ := prj
    obtain ⟨hbj, -⟩ := get?_zip hzj
    rw [List.get?_map, htmj] at hbj
    simp only [Option.map_some'] at hbj
    have hprjb : mkSchoolTermRow t pm tmj = prjb := Option.some_inj.mp hbj
    have hprevmean : prev.mean = bj0.mean := by
      have h1 : prev.mean = prjb.mean := by
        rw [← hprevrow]
        exact schoolTrendAt_mean _ _
      rw [h1, ← hprjb, hbjmk]
    have hrowmean : row.mean = b.mean := by
      rw [← hrow]
      exact schoolTrendAt_mean _ _
    have hpv2 : pv = some bj0.mean := hpv.symm
    have hbshape : b.mean = none ∨ ∃ q, b.mean = some (.fin (roundTo 2 q)) := by
      rw [← hbmk2]
      exact mkSchoolTermRow_mean_shape t pm tmi
    have hbjshape : bj0.mean = none ∨ ∃ q, bj0.mean = some (.fin (roundTo 2 q)) := by
      rw [← hbjmk]
      exact mkSchoolTermRow_mean_shape t pm tmj
    have hrowfun : row = schoolTrendAt (some bj0.mean) b := by
      rw [← hrow, hpv2]
    refine ⟨?_, ?_, ?_⟩
    · intro p c hpm hcm
      rw [hprevmean] at hpm
      rw [hrowmean] at hcm
      rw [hrowfun]
      simp only [schoolTrendAt, hpm, hcm]
    · intro dq hdq
      rcases hbjshape with hn | ⟨qj, hq⟩
      · exfalso
        rw [hrowfun] at hdq
        simp only [schoolTrendAt, hn] at hdq
        exact Option.noConfusion hdq
      · rcases hbshape with hn2 | ⟨qi, hq2⟩
        · exfalso
          rw [hrowfun] at hdq
          simp only [schoolTrendAt, hq, hn2] at hdq
          exact Option.noConfusion hdq
        · have hdval : row.delta =
              some (.fin (roundTo 2 (roundTo 2 qi - roundTo 2 qj))) := by
            rw [hrowfun]
            simp only [schoolTrendAt, hq, hq2]
          rw [hdval] at hdq
          have hdqv : dq = roundTo 2 qi - roundTo 2 qj := by
            have h4 : roundTo 2 (roundTo 2 qi - roundTo 2 qj) = dq :=
              PyF.fin.inj (Option.some_inj.mp hdq)
            rw [← h4, roundTo_sub_exact]
          have htrend : row.trend =
              (if roundTo 2 qj + 1 < roundTo 2 qi then "improving"
               else if roundTo 2 qi < roundTo 2 qj - 1 then "declining" else "stable") := by
            rw [hrowfun]
            simp only [schoolTrendAt, hq, hq2]
          rw [htrend, hdqv]
          have e1 : (roundTo 2 qj + 1 < roundTo 2 qi) ↔ (1 < roundTo 2 qi - roundTo 2 qj) := by
            constructor <;> intro <;> linarith
          have e2 : (roundTo 2 qi < roundTo 2 qj - 1) ↔ (roundTo 2 qi - roundTo 2 qj < -1) := by
            constructor <;> intro <;> linarith
          rw [if_congr e1 rfl (if_congr e2 rfl rfl)]
    · intro hor
      rw [hrowfun]
      rcases hor with hn | hn
      · rw [hprevmean] at hn
        refine ⟨?_, ?_⟩ <;> simp only [schoolTrendAt, hn]
      · rw [hrowmean] at hn
        rcases hbjshape with hj | ⟨qj, hq⟩
        · refine ⟨?_, ?_⟩ <;> simp only [schoolTrendAt, hj]
        · refine ⟨?_, ?_⟩ <;> simp only [schoolTrendAt, hq, hn]

theorem cellsWithTrend_spec (base : List (String × TermCell)) :
    (∀ c ∈ cellsWithTrend base,
      (∀ dq, c.2.delta = some (.fin dq) →
        c.2.trend = (if 1 < dq then "improving"
                     else if dq < -1 then "declining" else "stable")) ∧
      (c.2.delta = none → c.2.trend = "baseline")) ∧
    (∀ c, (cellsWithTrend base).get? 0 = some c →
      c.2.delta = none ∧ c.2.trend = "baseline") := by
  constructor
  · intro c hc
    unfold cellsWithTrend at hc
    obtain ⟨pr, hpr, hc⟩ := List.mem_map.mp hc
    constructor
    · intro dq hdq
      have h1 : c.2.trend = cellTrend c.2.delta := by
        rw [← hc]
      rw [h1, hdq]
      rfl
    · intro h0
      have h1 : c.2.trend = cellTrend c.2.delta := by
        rw [← hc]
      rw [h1, h0]
      rfl
  · intro c h0
    unfold cellsWithTrend at h0
    rw [List.get?_map] at h0
    obtain ⟨pr, hz, hc⟩ := Option.map_eq_some'.mp h0
    obtain ⟨b, pv⟩ := pr
    obtain ⟨-, hp⟩ := get?_zip hz
    rw [List.get?_cons_zero] at hp
    have hpv0 : (none : Option PyF) = pv := Option.some_inj.mp hp
    have hd : deltaOf pv b.2.mean = none := by
      rw [← hpv0]
      cases b.2.mean with
      | none => rfl
      | some v => cases v <;> rfl
    constructor
    · show c.2.delta = none
      rw [← hc]
      exact hd
    · show c.2.trend = "baseline"
      rw [← hc]
      show cellTrend (deltaOf pv b.2.mean) = "baseline"
      rw [hd]
      rfl

theorem stuCellsWithTrend_spec (base : List (String × StuTermCell)) :
    (∀ c ∈ stuCellsWithTrend base,
      (∀ dq, c.2.delta = some (.fin dq) →
        c.2.trend = (if 1 < dq then "improving"
                     else if dq < -1 then "declining" else "stable")) ∧
      (c.2.delta = none → c.2.trend = "baseline")) ∧
    (∀ c, (stuCellsWithTrend base).get? 0 = some c →
      c.2.delta = none ∧ c.2.trend = "baseline") := by
  constructor
  · intro c hc
    unfold stuCellsWithTrend at hc
    obtain ⟨pr, hpr, hc⟩ := List.mem_map.mp hc
    constructor
    · intro dq hdq
      have h1 : c.2.trend = cellTrend c.2.delta := by
        rw [← hc]
      rw [h1, hdq]
      rfl
    · intro h0
      have h1 : c.2.trend = cellTrend c.2.delta := by
        rw [← hc]
      rw [h1, h0]
      rfl
  · intro c h0
    unfold stuCellsWithTrend at h0
    rw [List.get?_map] at h0
    obtain ⟨pr, hz, hc⟩ := Option.map_eq_some'.mp h0
    obtain ⟨b, pv⟩ := pr
    obtain ⟨-, hp⟩ := get?_zip hz
    rw [List.get?_cons_zero] at hp
    have hpv0 : (none : Option PyF) = pv := Option.some_inj.mp hp
    have hd : deltaOf pv b.2.mean = none := by
      rw [← hpv0]
      cases b.2.mean with
      | none => rfl
      | some v => cases v <;> rfl
    constructor
    · show c.2.delta = none
      rw [← hc]
      exact hd
    · show c.2.trend = "baseline"
      rw [← hc]
      show cellTrend (deltaOf pv b.2.mean) = "baseline"
      rw [hd]
      rfl

theorem mem_studentsByTerm {t : Table} {pm : ℚ} {s : StuByTerm}
    (h : s ∈ studentsByTerm t pm) :
    ∃ sid, s.terms = stuCellsWithTrend ((sortedTermList t).map
      (mkStuCell pm (t.rows.filter (fun r => rowKeyStr t r = sid)))) := by
  simp only [studentsByTerm] at h
  obtain ⟨pr, hpr, hs⟩ := List.mem_map.mp h
  obtain ⟨s₀, i⟩ := pr
  have h1 : s₀ ∈ (match (sortedTermList t).getLast? with
    | some last => List.insertionSort (fun a b => lastTermKey last b ≤ lastTermKey last a)
        ((uniq (t.rows.filterMap (studentCell t))).map
          (mkStuByTerm t pm (sortedTermList t)))
    | none => (uniq (t.rows.filterMap (studentCell t))).map
        (mkStuByTerm t pm (sortedTermList t))) := (List.mem_zip hpr).1
  have h2 : s₀ ∈ (uniq (t.rows.filterMap (studentCell t))).map
      (mkStuByTerm t pm (sortedTermList t)) := by
    cases hlast : (sortedTermList t).getLast? with
    | some last =>
      rw [hlast] at h1
      exact (List.mem_insertionSort _).mp h1
    | none =>
      rw [hlast] at h1
      exact h1
  obtain ⟨sid, -, hmk⟩ := List.mem_map.mp h2
  refine ⟨sid, ?_⟩
  have hterms : s.terms = s₀.terms := by
    rw [← hs]
  rw [hterms, ← hmk]
  rfl

/-- Accessor: the school_by_term list of a term-comparison result. -/
def TermCompOut.school : TermCompOut → List SchoolTermRow
  | .err => []
  | .ok d => d.school_by_term

/-- C8 (amended): in compute_term_comparison's school/subject/student
aggregates, a non-null delta is classified `> 1 → improving, < -1 →
declining, else stable`; a school entry after the first with a null delta is
"unknown" (not "stable"), a subject/student cell with a null delta is
"baseline", and the first entry's delta is null with trend "baseline";
school deltas are the rounded current-minus-previous means. -/
theorem term_trend_spec (o : Oracles) (t : Table) (pm : ℚ) :
    ∀ d, computeTermComparison o t pm = .ok d →
      (∀ i row, d.school_by_term.get? i = some row →
        (i = 0 → row.delta = none ∧ row.trend = "baseline") ∧
        (∀ j, i = j + 1 → ∀ prev, d.school_by_term.get? j = some prev →
          (∀ p c, prev.mean = some (.fin p) → row.mean = some (.fin c) →
             row.delta = some (.fin (roundTo 2 (c - p)))) ∧
          (∀ dq, row.delta = some (.fin dq) →
             row.trend = (if 1 < dq then "improving"
                          else if dq < -1 then "declining" else "stable")) ∧
          ((prev.mean = none ∨ row.mean = none) →
             row.delta = none ∧ row.trend = "unknown"))) ∧
      (∀ srow ∈ d.subjects_by_term,
        (∀ c ∈ srow.terms,
          (∀ dq, c.2.delta = some (.fin dq) →
            c.2.trend = (if 1 < dq then "improving"
                         else if dq < -1 then "declining" else "stable")) ∧
          (c.2.delta = none → c.2.trend = "baseline")) ∧
        (∀ c, srow.terms.get? 0 = some c → c.2.delta = none ∧ c.2.trend = "baseline")) ∧
      (∀ stu ∈ d.students_by_term,
        (∀ c ∈ stu.terms,
          (∀ dq, c.2.delta = some (.fin dq) →
            c.2.trend = (if 1 < dq then "improving"
                         else if dq < -1 then "declining" else "stable")) ∧
          (c.2.delta = none → c.2.trend = "baseline")) ∧
        (∀ c, stu.terms.get? 0 = some c → c.2.delta = none ∧ c.2.trend = "baseline")) := by
  intro d hd
  unfold computeTermComparison at hd
  split at hd
  · cases hd
  · injection hd with hd
    subst hd
    refine ⟨?_, ?_, ?_⟩
    · intro i row h
      exact schoolByTerm_spec (canonTable t) pm i row h
    · intro srow hsrow
      simp only at hsrow
      split at hsrow
      · obtain ⟨subj, -, hmk⟩ := List.mem_map.mp hsrow
        have hterms : srow.terms = cellsWithTrend ((sortedTermList (canonTable t)).map
            (mkSubjCell pm ((canonTable t).rows.filter
              (fun r => strCell r.subject = subj)))) := by
          rw [← hmk]
        constructor
        · intro c hc
          rw [hterms] at hc
          exact (cellsWithTrend_spec _).1 c hc
        · intro c hc
          rw [hterms] at hc
          exact (cellsWithTrend_spec _).2 c hc
      · exact absurd hsrow (List.not_mem_nil srow)
    · intro stu hstu
      simp only at hstu
      split at hstu
      · obtain ⟨sid, hterms⟩ := mem_studentsByTerm hstu
        constructor
        · intro c hc
          rw [hterms] at hc
          exact (stuCellsWithTrend_spec _).1 c hc
        · intro c hc
          rw [hterms] at hc
          exact (stuCellsWithTrend_spec _).2 c hc
      · exact absurd hstu (List.not_mem_nil stu)

/-- A table whose first term exists but has no coercible percentage. -/
def tableC8 : Table :=
  ⟨true, false, false, true, true, false, false, false,
   [⟨some "S1", none, none, some "A", some "1", none, none, none, none⟩,
    ⟨some "S1", none, none, some "A", some "2", none, none, none, some 60⟩]⟩

/-- C8 counterexample: the second school_by_term entry has a null delta and
trend "unknown" — not "stable" as the claim's "otherwise → stable" requires
(and it is not the first entry, which is "baseline"). -/
theorem term_trend_unknown_counterexample :
    ((computeTermComparison oracle0 tableC8 50).school).map
      (fun r => (r.term, r.mean, r.delta, r.trend)) =
    [("Term 1", (none : Option PyF), (none : Option PyF), "baseline"),
     ("Term 2", some (.fin 60), none, "unknown")] := by
  with_unfolding_all decide

/-- Two fully-scored terms for the C8 witness. -/
def tableC8w : Table :=
  ⟨true, false, false, true, true, false, false, false,
   [⟨some "S1", none, none, some "A", some "1", none, none, none, some 40⟩,
    ⟨some "S1", none, none, some "A", some "2", none, none, none, some 60⟩]⟩

instance : Inhabited Early := ⟨⟨none, none, none, none, none, ""⟩⟩

instance : Inhabited TermCompData :=
  ⟨⟨[], [], [], [], [], [], [], [], 0, 0, 0, [], default⟩⟩

/-- The payload computed on `tableC8w`. -/
def c8Data : TermCompData :=
  match computeTermComparison oracle0 tableC8w 50 with
  | .ok d => d
  | .err => default

/-- Second school row on `tableC8w`. -/
def c8Row : SchoolTermRow := c8Data.school_by_term.getD 1 default

/-- First school row on `tableC8w`. -/
def c8Prev : SchoolTermRow := c8Data.school_by_term.getD 0 default

/-- C8 witness: concrete classification of a +20 delta and the baseline
first entry. -/
theorem term_trend_spec_witness :
    c8Row.delta = some (.fin 20) ∧
    c8Row.trend = (if (1 : ℚ) < 20 then "improving"
                   else if (20 : ℚ) < -1 then "declining" else "stable") ∧
    (c8Prev.delta = none ∧ c8Prev.trend = "baseline") :=
  ⟨by with_unfolding_all decide,
   (((term_trend_spec oracle0 tableC8w 50 c8Data (by with_unfolding_all decide)).1 1 c8Row
      (by with_unfolding_all decide)).2 0 rfl c8Prev (by with_unfolding_all decide)).2.1 20
      (by with_unfolding_all decide),
   ((term_trend_spec oracle0 tableC8w 50 c8Data (by with_unfolding_all decide)).1 0 c8Prev
      (by with_unfolding_all decide)).1 rfl⟩

/-! ## gaps.py — compute_gap_analysis

Scores reach this module through `_ensure_percentage`, which the row model
already bakes into `pct`.  Every float field of the four gap families is
produced through gaps' 4-dp `_safe_float`, so the final `_sanitize` is the
identity on them.  The gap records carry the raw `p_value` / Cohen's-`d`
locals of the source as `p_raw` / `d_raw` (they are not output keys): the
`statistically_significant` flag is computed from them exactly as in the
source, which lets the significance gate be stated over the true, unrounded
values. -/

/-- gaps._cohens_d: 0.0 for groups below two values or a zero pooled std,
else the mean difference over the oracle-sqrt pooled std. -/
def cohens_d (o : Oracles) (a b : List ℚ) : ℚ :=
  if a.length < 2 ∨ b.length < 2 then 0
  else
    let pooled := o.sqrt ((((a.length - 1 : ℕ) : ℚ) * qVar a +
      ((b.length - 1 : ℕ) : ℚ) * qVar b) / ((a.length + b.length - 2 : ℕ) : ℚ))
    if pooled = 0 then 0 else (qMean a - qMean b) / pooled

/-- gaps._effect_size_label. -/
def effectSizeLabel (d : ℚ) : String :=
  if |d| < 1/5 then "negligible"
  else if |d| < 1/2 then "small"
  else if |d| < 4/5 then "medium"
  else "large"

/-- The valid percentages of the rows whose lowercased gender cell is one of
the given aliases (`.str.lower().isin(...)`, a null gender never matches). -/
def genderScores (aliases : List String) (rs : List Row) : List ℚ :=
  (rs.filter (fun r => match r.gender with
    | some g => aliases.contains (pyLower g)
    | none => false)).filterMap (·.pct)

/-- One gender-gap record.  `p_raw` / `d_raw` are the unrounded source
locals (see the section comment); `subject` is the extra key added by the
per-subject loop. -/
structure GenderGap where
  label : String
  male_mean : Option PyF
  female_mean : Option PyF
  gap : Option PyF
  direction : String
  t_statistic : Option PyF
  p_value : Option PyF
  effect_size : Option PyF
  effect_size_label : String
  ci_lower : Option PyF
  ci_upper : Option PyF
  male_count : ℕ
  female_count : ℕ
  statistically_significant : Bool
  subject : Option String
  p_raw : PyF
  d_raw : ℚ
deriving DecidableEq, Repr

/-- gaps._analyze_gender_gap (None below two scores on either side). -/
def analyze_gender_gap (o : Oracles) (rs : List Row) (label : String) :
    Option GenderGap :=
  let m := genderScores ["male", "m", "boy"] rs
  let f := genderScores ["female", "f", "girl"] rs
  if m.length < 2 ∨ f.length < 2 then none
  else
    let p := o.welchP m f
    let d := cohens_d o m f
    let mm := qMean m
    let fm := qMean f
    let se := o.sqrt (qVar m / (m.length : ℚ) + qVar f / (f.length : ℚ))
    some ⟨label,
      safeFloat4 (.fin mm), safeFloat4 (.fin fm), safeFloat4 (.fin |mm - fm|),
      if fm < mm then "girls_underperforming" else "boys_underperforming",
      safeFloat4 (o.welchT m f), safeFloat4 p, safeFloat4 (.fin d),
      effectSizeLabel d,
      safeFloat4 (.fin (mm - fm - 49/25 * se)),
      safeFloat4 (.fin (mm - fm + 49/25 * se)),
      m.length, f.length,
      p.ltC (1/20) && decide ((1 : ℚ)/5 < |d|),
      none, p, d⟩

/-- gaps._compute_gender_gaps: the overall gap plus one per subject-group
(pandas groupby order), tagging the per-subject records with `subject`. -/
def compute_gender_gaps (o : Oracles) (t : Table) : List GenderGap :=
  if t.hasGender then
    (analyze_gender_gap o t.rows "Overall").toList ++
    (if t.hasSubject then
      (groupKeys (t.rows.map (·.subject))).filterMap (fun s =>
        (analyze_gender_gap o (t.rows.filter (fun r => r.subject = some s)) s).map
          (fun g => { g with subject := some s }))
     else [])
  else []

/-- The single class-gap record (`p_raw` as in `GenderGap`). -/
structure ClassGap where
  test_type : String
  best_class : String
  best_mean : Option PyF
  worst_class : String
  worst_mean : Option PyF
  gap : Option PyF
  statistic : Option PyF
  p_value : Option PyF
  effect_size : Option PyF
  statistically_significant : Bool
  class_means : List (String × Option PyF)
  p_raw : PyF
deriving DecidableEq, Repr

/-- Valid percentages of one class (`df[df[class_col] == cls]`). -/
def clsScores (t : Table) (c : String) : List ℚ :=
  (t.rows.filter (fun r => cellMatch r.cls (some c))).filterMap (·.pct)

/-- The `class_groups` dict: classes in first-appearance order that have at
least two valid scores (`class_means` has exactly the same keys). -/
def classGroups (t : Table) : List (String × List ℚ) :=
  (uniq (t.rows.filterMap (·.cls))).filterMap (fun c =>
    let s := clsScores t c
    if 2 ≤ s.length then some (c, s) else none)

/-- (statistic, p-value, effect size, test name): Welch t-test and Cohen's d
for two groups, one-way ANOVA with an exact eta-squared for three or more. -/
def classTestStats (o : Oracles) (groups : List (List ℚ)) :
    PyF × PyF × ℚ × String :=
  if groups.length = 2 then
    (o.welchT (groups.getD 0 []) (groups.getD 1 []),
     o.welchP (groups.getD 0 []) (groups.getD 1 []),
     cohens_d o (groups.getD 0 []) (groups.getD 1 []), "t-test")
  else
    let all := groups.flatMap id
    let gm := qMean all
    let ssb := (groups.map (fun g => (g.length : ℚ) * (qMean g - gm) ^ 2)).sum
    let sst := (groups.map (fun g => sqDevSum gm g)).sum
    (o.anovaF groups, o.anovaP groups, if 0 < sst then ssb / sst else 0, "ANOVA")

instance : Inhabited (String × ℚ) := ⟨("", 0)⟩

/-- gaps._compute_class_gaps. -/
def compute_class_gaps (o : Oracles) (t : Table) : List ClassGap :=
  if t.hasCls then
    if (uniq (t.rows.filterMap (·.cls))).length < 2 then []
    else
      let cg := classGroups t
      if cg.length < 2 then []
      else
        let st := classTestStats o (cg.map (·.2))
        let ms := List.insertionSort (fun a b => b.2 ≤ a.2)
          (cg.map (fun g => (g.1, qMean g.2)))
        let best := ms.headI
        let worst := ms.getLastD best
        [⟨st.2.2.2, best.1, safeFloat4 (.fin best.2), worst.1,
          safeFloat4 (.fin worst.2), safeFloat4 (.fin (best.2 - worst.2)),
          safeFloat4 st.1, safeFloat4 st.2.1, safeFloat4 (.fin st.2.2.1),
          (st.2.1).ltC (1/20),
          ms.map (fun p => (p.1, safeFloat4 (.fin p.2))), st.2.1⟩]
  else []

/-- The single regional-gap record. -/
structure RegionalGap where
  test_type : String
  best_region : String
  best_mean : Option PyF
  worst_region : String
  worst_mean : Option PyF
  gap : Option PyF
  statistic : Option PyF
  p_value : Option PyF
  statistically_significant : Bool
  region_means : List (String × Option PyF)
  p_raw : PyF
deriving DecidableEq, Repr

/-- Valid percentages of one region. -/
def regionScores (t : Table) (c : String) : List ℚ :=
  (t.rows.filter (fun r => cellMatch r.region (some c))).filterMap (·.pct)

/-- The `region_groups` dict (first-appearance regions with ≥2 scores). -/
def regionGroups (t : Table) : List (String × List ℚ) :=
  (uniq (t.rows.filterMap (·.region))).filterMap (fun c =>
    let s := regionScores t c
    if 2 ≤ s.length then some (c, s) else none)

/-- gaps._compute_regional_gaps. -/
def compute_regional_gaps (o : Oracles) (t : Table) : List RegionalGap :=
  if t.hasRegion then
    if (uniq (t.rows.filterMap (·.region))).length < 2 then []
    else
      let rg := regionGroups t
      if rg.length < 2 then []
      else
        let groups := rg.map (·.2)
        let st : PyF × PyF × String :=
          if groups.length = 2 then
            (o.welchT (groups.getD 0 []) (groups.getD 1 []),
             o.welchP (groups.getD 0 []) (groups.getD 1 []), "t-test")
          else (o.anovaF groups, o.anovaP groups, "ANOVA")
        let ms := List.insertionSort (fun a b => b.2 ≤ a.2)
          (rg.map (fun g => (g.1, qMean g.2)))
        let best := ms.headI
        let worst := ms.getLastD best
        [⟨st.2.2, best.1, safeFloat4 (.fin best.2), worst.1,
          safeFloat4 (.fin worst.2), safeFloat4 (.fin (best.2 - worst.2)),
          safeFloat4 st.1, safeFloat4 st.2.1, (st.2.1).ltC (1/20),
          ms.map (fun p => (p.1, safeFloat4 (.fin p.2))), st.2.1⟩]
  else []

/-- The single term-gap record. -/
structure TermGap where
  best_term : String
  best_mean : Option PyF
  worst_term : String
  worst_mean : Option PyF
  gap : Option PyF
  term_means : List (String × Option PyF)
deriving DecidableEq, Repr

/-- The `term_means` dict: sorted distinct terms that have at least one
valid percentage, with their means. -/
def termMeansGap (t : Table) : List (String × ℚ) :=
  (groupKeys (t.rows.map (·.term))).filterMap (fun tm =>
    let s := (t.rows.filter (fun r => cellMatch r.term (some tm))).filterMap (·.pct)
    if s.isEmpty then none else some (tm, qMean s))

/-- gaps._compute_term_gaps.  `none` models the `sorted_terms[0]` IndexError
the source raises when ≥2 distinct terms exist but none has a valid
percentage. -/
def compute_term_gaps (t : Table) : Option (List TermGap) :=
  if t.hasTerm then
    if (uniq (t.rows.filterMap (·.term))).length < 2 then some []
    else
      let ms := List.insertionSort (fun a b => b.2 ≤ a.2) (termMeansGap t)
      match ms with
      | [] => none
      | best :: _ =>
        let worst := ms.getLastD best
        some [⟨best.1, safeFloat4 (.fin best.2), worst.1,
          safeFloat4 (.fin worst.2), safeFloat4 (.fin (best.2 - worst.2)),
          ms.map (fun p => (p.1, safeFloat4 (.fin p.2)))⟩]
  else some []

/-- Return value of compute_gap_analysis (its pass_mark argument is accepted
and unused by the source). -/
structure GapOut where
  gender_gaps : List GenderGap
  class_gaps : List ClassGap
  regional_gaps : List RegionalGap
  term_gaps : List TermGap
deriving DecidableEq, Repr

/-- gaps.compute_gap_analysis (`none` propagates the term-gap IndexError). -/
def compute_gap_analysis (o : Oracles) (t : Table) : Option GapOut :=
  match compute_term_gaps t with
  | none => none
  | some tg => some ⟨compute_gender_gaps o t, compute_class_gaps o t,
      compute_regional_gaps o t, tg⟩

/-! ## insights.py — generate_all_insights

Each insight dict's `title`, `narrative` and `recommendation` are fixed text
templates over the same data as `supporting_data` and are omitted; the
`supporting_data` payload is modelled by the `Supporting` sum.  Fields typed
`ℚ` are finite by construction, mirroring the source's arithmetic on values
already passed through insights' `_safe_float` (which maps NaN/inf/None to
0.0 and rounds to 2 dp). -/

/-- `s.lower().replace(" ", "_")`, the insight-id fragments (the pattern is
a single character, so replace is a character map). -/
def idFrag (s : String) : String :=
  ⟨(pyLower s).data.map (fun c => if c = ' ' then '_' else c)⟩

/-- The `supporting_data` payload of each insight rule. -/
inductive Supporting where
  | perfLowMean (overall_mean pass_mark shortfall : ℚ)
  | perfGoodMean (overall_mean pass_mark surplus : ℚ)
  | perfHighFail (fail_rate : ℚ) (fail_count total_records : ℕ)
  | perfWeakSubject (subject : String) (subject_mean school_mean gap : ℚ)
  | perfSubjectFail (subject : String) (fail_rate : ℚ) (fail_count total : ℕ)
  | gapGender (g : GenderGap)
  | gapClass (g : ClassGap)
  | gapRegional (g : RegionalGap)
  | gapTerm (g : TermGap)
  | riskSummary (total high medium : ℕ) (high_pct : ℚ)
  | riskCluster (cls : String) (count total : ℕ)
  | posTop (student : String) (mean : ℚ)
  | posImproving (student : String) (slope : ℚ)
  | posStrong (subject : String) (pass_rate : ℚ)
  | posTrend (first_term : String) (first_mean : ℚ) (last_term : String)
      (last_mean improvement : ℚ)
  | corrStrong (subject_a subject_b : String) (r p : ℚ)
deriving DecidableEq, Repr

/-- One insight object. -/
structure Insight where
  id : String
  category : String
  severity : String
  supporting : Supporting
deriving DecidableEq, Repr

instance : Inhabited SubjectRow :=
  ⟨⟨"", none, none, none, none, none, none, none, 0, 0, 0, ⟨none, none, none⟩⟩⟩

/-- insights._performance_insights (rules 1–4). -/
def performance_insights (ov : OverviewOut) (ss : SubjectStatsOut) (pm : ℚ) :
    List Insight :=
  let overall_mean := insSafe ov.overall_mean
  let fail_rate := insSafe ov.fail_rate
  let r12 : List Insight :=
    (if overall_mean < pm then
      [⟨"perf_low_overall_mean", "performance",
        if overall_mean < pm - 15 then "critical" else "warning",
        .perfLowMean overall_mean pm (roundTo 1 (pm - overall_mean))⟩]
     else
      [⟨"perf_good_overall_mean", "performance", "info",
        .perfGoodMean overall_mean pm (roundTo 1 (overall_mean - pm))⟩]) ++
    (if 40 < fail_rate then
      [⟨"perf_high_fail_rate", "performance",
        if 60 < fail_rate then "critical" else "warning",
        .perfHighFail fail_rate ov.fail_count ov.total_records⟩]
     else [])
  let r3 : List Insight :=
    if ss.subjects.isEmpty = false && decide (0 < overall_mean) then
      let weakest := ss.subjects.getLastD default
      let wm := insSafe weakest.mean
      if 10 < overall_mean - wm then
        [⟨"perf_weakest_subject", "performance", "warning",
          .perfWeakSubject weakest.subject wm overall_mean
            (roundTo 1 (overall_mean - wm))⟩]
      else []
    else []
  let r4 : List Insight := ss.subjects.filterMap (fun subj =>
    let fr := insSafe subj.fail_rate
    if 50 < fr then
      some ⟨"perf_subject_high_fail_" ++ idFrag subj.subject, "performance",
        if 70 < fr then "critical" else "warning",
        .perfSubjectFail subj.subject fr subj.fail_count subj.count⟩
    else none)
  r12 ++ r3 ++ r4

/-- insights._gap_insights: gender/class/regional gaps only when the
`statistically_significant` flag is set; term gaps when the gap exceeds 5. -/
def gap_insights (gd : GapOut) : List Insight :=
  (gd.gender_gaps.filterMap (fun g =>
    if g.statistically_significant then
      some ⟨"gap_gender_" ++ idFrag g.label, "gap",
        if g.effect_size_label = "large" ∨ g.effect_size_label = "medium" then
          "critical" else "warning",
        .gapGender g⟩
    else none)) ++
  (gd.class_gaps.filterMap (fun g =>
    if g.statistically_significant then
      some ⟨"gap_class", "gap",
        if 15 < insSafe g.gap then "critical" else "warning", .gapClass g⟩
    else none)) ++
  (gd.regional_gaps.filterMap (fun g =>
    if g.statistically_significant then
      some ⟨"gap_regional", "gap",
        if 20 < insSafe g.gap then "critical" else "warning", .gapRegional g⟩
    else none)) ++
  (gd.term_gaps.filterMap (fun g =>
    if 5 < insSafe g.gap then
      some ⟨"gap_term", "gap",
        if 10 < insSafe g.gap then "warning" else "info", .gapTerm g⟩
    else none))

/-- The truthy class key of a student record (`if cls:`). -/
def truthyCls : Option String → Option String
  | some s => if s = "" then none else some s
  | none => none

/-- insights._at_risk_insights (the degenerate no-student-column risk dict
has `total = 0`, so it yields no insight). -/
def at_risk_insights (rd : RiskOut) (t : Table) : List Insight :=
  match rd with
  | .noStudentCol => []
  | .ok students sm =>
    if sm.total = 0 then []
    else
      let high_pct := insSafe sm.high_risk_pct
      (if 0 < sm.high_risk then
        [⟨"risk_summary", "at_risk",
          if 25 < high_pct then "critical"
          else if 15 < high_pct then "warning" else "info",
          .riskSummary sm.total sm.high_risk sm.medium_risk high_pct⟩]
       else []) ++
      (if t.hasCls then
        (uniq ((students.filter (fun s => s.risk_level = "High")).filterMap
            (fun s => truthyCls s.cls))).filterMap (fun c =>
          let k := ((students.filter (fun s => s.risk_level = "High")).filter
            (fun s => truthyCls s.cls = some c)).length
          if 3 ≤ k then
            some ⟨"risk_cluster_" ++ idFrag c, "at_risk", "critical",
              .riskCluster c k
                ((students.filter (fun s => truthyCls s.cls = some c)).length)⟩
          else none)
       else [])

instance : Inhabited NamedMean := ⟨⟨"", none⟩⟩

/-- insights._positive_insights (its risk_data and pass_mark arguments are
unused by the source).  The rule-2 slope recomputation differs from
`_ensure_percentage` only in skipping the 2-dp rounding of derived
percentages, which is below this row model's `pct` abstraction. -/
def positive_insights (ov : OverviewOut) (ss : SubjectStatsOut) (t : Table) :
    List Insight :=
  let r1 : List Insight := ((ov.top_students.getD []).take 3).filterMap (fun stud =>
    let m := insSafe stud.mean
    if 80 ≤ m then
      some ⟨"pos_top_" ++ idFrag stud.name, "positive", "info",
        .posTop stud.name m⟩
    else none)
  let r2 : List Insight :=
    if t.hasTerm && t.hasStudentCol then
      (uniq (t.rows.filterMap (studentCell t))).filterMap (fun sid =>
        let sdf := t.rows.filter (fun r => cellMatch (studentCell t r) (some sid))
        let vals := (sortTerms (groupKeys (sdf.map (·.term)))).filterMap (fun tm =>
          match pfMean (rowsPct (sdf.filter (fun r => r.term = some tm))) with
          | .fin q => some q
          | _ => none)
        if 2 ≤ vals.length then
          if 3 < lsSlope vals then
            some ⟨"pos_improving_" ++ idFrag sid, "positive", "info",
              .posImproving (if t.hasName then strCell sdf.headI.name else sid)
                (roundTo 1 (lsSlope vals))⟩
          else none
        else none)
    else []
  let r3 : List Insight := ss.subjects.filterMap (fun subj =>
    let pr := insSafe subj.pass_rate
    if 85 ≤ pr then
      some ⟨"pos_strong_" ++ idFrag subj.subject, "positive", "info",
        .posStrong subj.subject pr⟩
    else none)
  let r4 : List Insight :=
    if 2 ≤ (ov.term_trends.getD []).length then
      let first := (ov.term_trends.getD []).headI
      let last := (ov.term_trends.getD []).getLastD first
      let fm := insSafe first.mean
      let lm := insSafe last.mean
      if fm + 2 < lm then
        [⟨"pos_improving_trend", "positive", "info",
          .posTrend first.label fm last.label lm (roundTo 1 (lm - fm))⟩]
      else []
    else []
  r1 ++ r2 ++ r3 ++ r4

/-- insights._correlation_insights.  A stored-null `r` or `p_value` becomes
0.0 through insights' `_safe_float`, so a null p-value trivially passes the
`p < 0.05` check. -/
def correlation_insights (ss : SubjectStatsOut) : List Insight :=
  let pairs : List CorrPair := match ss.correlation_matrix with
    | some cm => cm.pairs
    | none => []
  pairs.filterMap (fun pair =>
    let r := insSafe pair.r
    let p := insSafe pair.p_value
    if (3 : ℚ)/5 < |r| ∧ p < 1/20 then
      some ⟨"corr_" ++ idFrag pair.subject_a ++ "_" ++ idFrag pair.subject_b,
        "correlation", "info", .corrStrong pair.subject_a pair.subject_b r p⟩
    else none)

/-- The `severity_order` sort key (9 for an unknown severity). -/
def sevOrd (s : String) : ℕ :=
  if s = "critical" then 0 else if s = "warning" then 1
  else if s = "info" then 2 else 9

/-- Return value of generate_all_insights (`executive_summary` is a pure
text rendering of the same list and is omitted). -/
structure InsightsOut where
  insights : List Insight
  total : ℕ
  by_category : List (String × ℕ)
  by_severity : List (String × ℕ)
deriving DecidableEq, Repr

/-- Counts keyed in first-appearance order (Python dict insertion order). -/
def countsBy (f : Insight → String) (l : List Insight) : List (String × ℕ) :=
  (uniq (l.map f)).map (fun k => (k, (l.filter (fun i => f i = k)).length))

/-- insights.generate_all_insights (`none` propagates the gap-analysis
IndexError; the severity sort is Python's stable sort). -/
def generate_all_insights (o : Oracles) (t : Table) (pm : ℚ) :
    Option InsightsOut :=
  match compute_gap_analysis o t with
  | none => none
  | some gd =>
    let ov := computeOverview o t pm
    let ss := computeSubjectStats o t pm
    let rd := computeRiskScores o t pm
    let all := performance_insights ov ss pm ++ gap_insights gd ++
      at_risk_insights rd t ++ positive_insights ov ss t ++
      correlation_insights ss
    let sortedIns :=
      List.insertionSort (fun a b => sevOrd a.severity ≤ sevOrd b.severity) all
    some ⟨sortedIns, sortedIns.length, countsBy (fun i => i.category) sortedIns,
      countsBy (fun i => i.severity) sortedIns⟩

/-! ### The gap significance gate (C5) -/

/-- The gate property of one insight: any embedded gender gap was built with
raw p-value < 0.05 and |Cohen's d| > 0.2; any class or regional gap with raw
p-value < 0.05. -/
def GapGate (ins : Insight) : Prop :=
  (∀ g, ins.supporting = Supporting.gapGender g →
    g.p_raw.ltC (1/20) = true ∧ (1 : ℚ)/5 < |g.d_raw|) ∧
  (∀ g, ins.supporting = Supporting.gapClass g → g.p_raw.ltC (1/20) = true) ∧
  (∀ g, ins.supporting = Supporting.gapRegional g → g.p_raw.ltC (1/20) = true)

theorem gap_fields (o : Oracles) (t : Table) (gd : GapOut)
    (h : compute_gap_analysis o t = some gd) :
    gd.gender_gaps = compute_gender_gaps o t ∧
    gd.class_gaps = compute_class_gaps o t ∧
    gd.regional_gaps = compute_regional_gaps o t := by
  unfold compute_gap_analysis at h
  split at h
  · cases h
  · injection h with h
    subst h
    exact ⟨rfl, rfl, rfl⟩

theorem analyze_gender_gap_sig (o : Oracles) (rs : List Row) (label : String)
    (g : GenderGap) (h : analyze_gender_gap o rs label = some g) :
    g.statistically_significant =
      (g.p_raw.ltC (1/20) && decide ((1 : ℚ)/5 < |g.d_raw|)) := by
  simp only [analyze_gender_gap] at h
  split at h
  · cases h
  · injection h with h
    subst h
    rfl

theorem gender_gap_sig (o : Oracles) (t : Table) (g : GenderGap)
    (h : g ∈ compute_gender_gaps o t) :
    g.statistically_significant =
      (g.p_raw.ltC (1/20) && decide ((1 : ℚ)/5 < |g.d_raw|)) := by
  simp only [compute_gender_gaps] at h
  split at h
  · simp only [List.mem_append] at h
    rcases h with h | h
    · rw [Option.mem_toList, Option.mem_def] at h
      exact analyze_gender_gap_sig o t.rows "Overall" g h
    · split at h
      · obtain ⟨s, -, hmap⟩ := List.mem_filterMap.mp h
        rw [Option.map_eq_some'] at hmap
        obtain ⟨g₀, hg₀, heq⟩ := hmap
        subst heq
        exact analyze_gender_gap_sig o _ s g₀ hg₀
      · exact absurd h (List.not_mem_nil g)
  · exact absurd h (List.not_mem_nil g)

theorem class_gap_sig (o : Oracles) (t : Table) (g : ClassGap)
    (h : g ∈ compute_class_gaps o t) :
    g.statistically_significant = g.p_raw.ltC (1/20) := by
  simp only [compute_class_gaps] at h
  split at h
  · split at h
    · exact absurd h (List.not_mem_nil g)
    · split at h
      · exact absurd h (List.not_mem_nil g)
      · simp only [List.mem_singleton] at h
        subst h
        rfl
  · exact absurd h (List.not_mem_nil g)

theorem regional_gap_sig (o : Oracles) (t : Table) (g : RegionalGap)
    (h : g ∈ compute_regional_gaps o t) :
    g.statistically_significant = g.p_raw.ltC (1/20) := by
  simp only [compute_regional_gaps] at h
  split at h
  · split at h
    · exact absurd h (List.not_mem_nil g)
    · split at h
      · exact absurd h (List.not_mem_nil g)
      · simp only [List.mem_singleton] at h
        subst h
        rfl
  · exact absurd h (List.not_mem_nil g)

theorem gapGate_performance (ov : OverviewOut) (ss : SubjectStatsOut) (pm : ℚ)
    (ins : Insight) (h : ins ∈ performance_insights ov ss pm) : GapGate ins := by
  simp only [performance_insights, List.mem_append] at h
  rcases h with (((h | h) | h) | h)
  · split at h <;> (simp only [List.mem_singleton] at h; subst h; simp [GapGate])
  · split at h
    · simp only [List.mem_singleton] at h
      subst h
      simp [GapGate]
    · exact absurd h (List.not_mem_nil ins)
  · split at h
    · split at h
      · simp only [List.mem_singleton] at h
        subst h
        simp [GapGate]
      · exact absurd h (List.not_mem_nil ins)
    · exact absurd h (List.not_mem_nil ins)
  · obtain ⟨subj, -, hins⟩ := List.mem_filterMap.mp h
    try dsimp only at hins
    split at hins
    · injection hins with hins
      subst hins
      simp [GapGate]
    · cases hins

theorem gapGate_gap_insights (o : Oracles) (t : Table) (gd : GapOut)
    (hga : compute_gap_analysis o t = some gd) (ins : Insight)
    (h : ins ∈ gap_insights gd) : GapGate ins := by
  obtain ⟨hgen, hcls, hreg⟩ := gap_fields o t gd hga
  simp only [gap_insights, List.mem_append] at h
  rcases h with (((h | h) | h) | h)
  · obtain ⟨g, hgm, hmap⟩ := List.mem_filterMap.mp h
    try dsimp only at hmap
    split at hmap
    · rename_i hsig
      injection hmap with hmap
      subst hmap
      refine ⟨fun g' hgg => ?_, fun g' hgg => Supporting.noConfusion hgg,
        fun g' hgg => Supporting.noConfusion hgg⟩
      injection hgg with hgg
      subst hgg
      rw [hgen] at hgm
      have hs := (gender_gap_sig o t g hgm).symm
      rw [hsig, Bool.and_eq_true] at hs
      exact ⟨hs.1, of_decide_eq_true hs.2⟩
    · cases hmap
  · obtain ⟨g, hgm, hmap⟩ := List.mem_filterMap.mp h
    try dsimp only at hmap
    split at hmap
    · rename_i hsig
      injection hmap with hmap
      subst hmap
      refine ⟨fun g' hgg => Supporting.noConfusion hgg, fun g' hgg => ?_,
        fun g' hgg => Supporting.noConfusion hgg⟩
      injection hgg with hgg
      subst hgg
      rw [hcls] at hgm
      have hs := (class_gap_sig o t g hgm).symm
      rw [hsig] at hs
      exact hs
    · cases hmap
  · obtain ⟨g, hgm, hmap⟩ := List.mem_filterMap.mp h
    try dsimp only at hmap
    split at hmap
    · rename_i hsig
      injection hmap with hmap
      subst hmap
      refine ⟨fun g' hgg => Supporting.noConfusion hgg,
        fun g' hgg => Supporting.noConfusion hgg, fun g' hgg => ?_⟩
      injection hgg with hgg
      subst hgg
      rw [hreg] at hgm
      have hs := (regional_gap_sig o t g hgm).symm
      rw [hsig] at hs
      exact hs
    · cases hmap
  · obtain ⟨g, -, hmap⟩ := List.mem_filterMap.mp h
    try dsimp only at hmap
    split at hmap
    · injection hmap with hmap
      subst hmap
      simp [GapGate]
    · cases hmap

theorem gapGate_at_risk (rd : RiskOut) (t : Table) (ins : Insight)
    (h : ins ∈ at_risk_insights rd t) : GapGate ins := by
  cases rd with
  | noStudentCol => simp [at_risk_insights] at h
  | ok students sm =>
    simp only [at_risk_insights] at h
    split at h
    · exact absurd h (List.not_mem_nil ins)
    · simp only [List.mem_append] at h
      rcases h with h | h
      · split at h
        · simp only [List.mem_singleton] at h
          subst h
          simp [GapGate]
        · exact absurd h (List.not_mem_nil ins)
      · split at h
        · obtain ⟨c, -, hmap⟩ := List.mem_filterMap.mp h
          try dsimp only at hmap
          split at hmap
          · injection hmap with hmap
            subst hmap
            simp [GapGate]
          · cases hmap
        · exact absurd h (List.not_mem_nil ins)

theorem gapGate_positive (ov : OverviewOut) (ss : SubjectStatsOut) (t : Table)
    (ins : Insight) (h : ins ∈ positive_insights ov ss t) : GapGate ins := by
  simp only [positive_insights, List.mem_append] at h
  rcases h with (((h | h) | h) | h)
  · obtain ⟨x, -, hins⟩ := List.mem_filterMap.mp h
    try dsimp only at hins
    split at hins
    · injection hins with hins
      subst hins
      simp [GapGate]
    · cases hins
  · split at h
    · obtain ⟨sid, -, hins⟩ := List.mem_filterMap.mp h
      try dsimp only at hins
      split at hins
      · split at hins
        · injection hins with hins
          subst hins
          simp [GapGate]
        · cases hins
      · cases hins
    · exact absurd h (List.not_mem_nil ins)
  · obtain ⟨x, -, hins⟩ := List.mem_filterMap.mp h
    try dsimp only at hins
    split at hins
    · injection hins with hins
      subst hins
      simp [GapGate]
    · cases hins
  · split at h
    · split at h
      · simp only [List.mem_singleton] at h
        subst h
        simp [GapGate]
      · exact absurd h (List.not_mem_nil ins)
    · exact absurd h (List.not_mem_nil ins)

theorem gapGate_corr (ss : SubjectStatsOut) (ins : Insight)
    (h : ins ∈ correlation_insights ss) : GapGate ins := by
  simp only [correlation_insights] at h
  obtain ⟨pair, -, hins⟩ := List.mem_filterMap.mp h
  try dsimp only at hins
  split at hins
  · injection hins with hins
    subst hins
    simp [GapGate]
  · cases hins

/-- C5: no gender, class or regional gap insight is generated unless the
underlying gap result was computed with raw p-value < 0.05 — and for gender
gaps additionally |Cohen's d| > 0.2 (`p_raw`/`d_raw` are the unrounded
source locals the `statistically_significant` gate is evaluated on). -/
theorem gap_significance_spec (o : Oracles) (t : Table) (pm : ℚ)
    (out : InsightsOut) (hout : generate_all_insights o t pm = some out) :
    ∀ ins ∈ out.insights,
      (∀ g, ins.supporting = Supporting.gapGender g →
        g.p_raw.ltC (1/20) = true ∧ (1 : ℚ)/5 < |g.d_raw|) ∧
      (∀ g, ins.supporting = Supporting.gapClass g →
        g.p_raw.ltC (1/20) = true) ∧
      (∀ g, ins.supporting = Supporting.gapRegional g →
        g.p_raw.ltC (1/20) = true) := by
  intro ins hins
  suffices h : GapGate ins from h
  unfold generate_all_insights at hout
  cases hga : compute_gap_analysis o t with
  | none =>
    rw [hga] at hout
    cases hout
  | some gd =>
    simp only [hga] at hout
    injection hout with hout
    subst hout
    simp only [List.mem_append] at hins
    have hmem := (List.perm_insertionSort
      (fun a b : Insight => sevOrd a.severity ≤ sevOrd b.severity) _).mem_iff.mp hins
    simp only [List.mem_append] at hmem
    rcases hmem with ((((h | h) | h) | h) | h)
    · exact gapGate_performance _ _ pm ins h
    · exact gapGate_gap_insights o t gd hga ins h
    · exact gapGate_at_risk _ t ins h
    · exact gapGate_positive _ _ t ins h
    · exact gapGate_corr _ ins h

/-- Gender-gap witness table: two male scores [10, 20], two female scores
[80, 90], no other columns. -/
def tableC5 : Table :=
  ⟨false, false, false, false, false, true, false, false,
   [⟨none, none, none, none, none, some "M", none, none, some 10⟩,
    ⟨none, none, none, none, none, some "M", none, none, some 20⟩,
    ⟨none, none, none, none, none, some "F", none, none, some 80⟩,
    ⟨none, none, none, none, none, some "F", none, none, some 90⟩]⟩

/-- An oracle for `tableC5`: the Welch p-value is 0.01 and every square root
is 7 (so Cohen's d is (15 − 85)/7 = −10). -/
def c5Oracle : Oracles :=
  ⟨fun _ => 7, fun _ _ => .fin 0, fun _ _ => .fin (1/100),
   fun _ => .fin 0, fun _ => .fin 0, fun _ => .fin 0⟩

instance : Inhabited InsightsOut := ⟨⟨[], 0, [], []⟩⟩

instance : Inhabited GenderGap :=
  ⟨⟨"", none, none, none, "", none, none, none, "", none, none, 0, 0, false,
    none, .nan, 0⟩⟩

/-- The insight payload computed on `tableC5`. -/
def c5Out : InsightsOut :=
  match generate_all_insights c5Oracle tableC5 50 with
  | some x => x
  | none => default

/-- The single gender gap computed on `tableC5`. -/
def c5Gap : GenderGap := (compute_gender_gaps c5Oracle tableC5).headI

/-- The gender-gap insight generated on `tableC5`. -/
def c5Ins : Insight := ⟨"gap_gender_overall", "gap", "critical", .gapGender c5Gap⟩

/-- C5 witness: the concrete gender-gap insight on `tableC5` satisfies the
gate — raw p-value 0.01 < 0.05 and |d| = 10 > 0.2. -/
theorem gap_significance_spec_witness :
    c5Gap.p_raw.ltC (1/20) = true ∧ (1 : ℚ)/5 < |c5Gap.d_raw| :=
  (gap_significance_spec c5Oracle tableC5 50 c5Out (by with_unfolding_all decide)
    c5Ins (by with_unfolding_all decide)).1 c5Gap rfl

/-! ### Sanitization (C4)

`okF` holds for a nullable float slot that is null or finite — never NaN or
±Infinity.  The `Good*` predicates collect every `Option PyF` output slot of
an entry point's structure; slots typed `ℚ`/`ℕ` are finite by construction
(they mirror source arithmetic on already-checked values), and the gap
records' `p_raw`/`d_raw` ghosts are source locals, not output values, so
they are not collected. -/

/-- A nullable float slot is sanitized: null or finite. -/
def okF : Option PyF → Bool
  | some v => v.isFin
  | none => true

@[simp] theorem okF_none : okF none = true := rfl

@[simp] theorem okF_some_fin (q : ℚ) : okF (some (.fin q)) = true := rfl

@[simp] theorem okF_safeFloat2 (v : PyF) : okF (safeFloat2 v) = true := by
  cases v <;> rfl

@[simp] theorem okF_safeFloat4 (v : PyF) : okF (safeFloat4 v) = true := by
  cases v <;> rfl

@[simp] theorem okF_sanOpt (v : Option PyF) : okF (sanOpt v) = true := by
  cases v with
  | none => rfl
  | some p => cases p <;> rfl

theorem okF_ite {c : Prop} [Decidable c] {a b : Option PyF} (ha : okF a = true)
    (hb : okF b = true) : okF (if c then a else b) = true := by
  split
  · exact ha
  · exact hb

@[simp] theorem okF_deltaOf (p m : Option PyF) : okF (deltaOf p m) = true := by
  unfold deltaOf
  cases m with
  | none => rfl
  | some v =>
    cases v with
    | fin q =>
      cases p with
      | none => rfl
      | some w => cases w <;> rfl
    | nan => rfl
    | pinf => rfl
    | ninf => rfl

/-- Every float slot of compute_overview's output. -/
def GoodOverview (v : OverviewOut) : Bool :=
  okF v.overall_mean && okF v.overall_median && okF v.overall_std &&
  okF v.pass_rate && okF v.fail_rate &&
  (v.top_students.getD []).all (fun e => okF e.mean) &&
  (v.bottom_students.getD []).all (fun e => okF e.mean) &&
  (v.top_subjects.getD []).all (fun e => okF e.mean) &&
  (v.bottom_subjects.getD []).all (fun e => okF e.mean) &&
  (v.class_averages.getD []).all (fun e => okF e.mean) &&
  (v.term_trends.getD []).all (fun e => okF e.mean)

/-- Every float slot of one subjects entry. -/
def GoodSubjectRow (x : SubjectRow) : Bool :=
  okF x.mean && okF x.median && okF x.std && okF x.min && okF x.max &&
  okF x.pass_rate && okF x.fail_rate &&
  okF x.distribution.q1 && okF x.distribution.q3 && okF x.distribution.iqr

/-- Every float slot of compute_subject_stats' output. -/
def GoodSubjectStats (s : SubjectStatsOut) : Bool :=
  s.subjects.all GoodSubjectRow &&
  (match s.correlation_matrix with
   | some cm => cm.pairs.all (fun p => okF p.r && okF p.p_value) &&
       cm.matrix.all (fun p => p.2.all (fun q => okF q.2))
   | none => true)

/-- Every float slot of compute_student_profile's output. -/
def GoodProfile (p : Profile) : Bool :=
  okF p.overall_mean && okF p.overall_median &&
  (p.subject_scores.getD []).all (fun q => okF q.2) &&
  (p.term_trends.getD []).all (fun e =>
    okF e.mean && e.subjectMeans.all (fun q => okF q.2)) &&
  p.all_scores.all (fun r => okF r.percentage)

/-- Every float slot of compute_risk_scores' output. -/
def GoodRiskOut : RiskOut → Bool
  | .noStudentCol => true
  | .ok students sm =>
    students.all (fun s => okF s.risk_score && okF s.overall_mean) &&
    okF sm.school_average && okF sm.high_risk_pct

/-- Float slots of one subjects_by_term cell. -/
def GoodTermCell (c : TermCell) : Bool :=
  okF c.mean && okF c.pass_rate && okF c.delta

/-- Float slots of one students_by_term cell. -/
def GoodStuCell (c : StuTermCell) : Bool := okF c.mean && okF c.delta

/-- Float slots of one school_by_term row. -/
def GoodSchoolRow (r : SchoolTermRow) : Bool :=
  okF r.mean && okF r.median && okF r.pass_rate && okF r.delta

/-- Float slots of one exam_timeline point. -/
def GoodExamPoint (p : ExamPoint) : Bool :=
  okF p.mean && okF p.pass_rate && okF p.delta

/-- Float slots of early_performance. -/
def GoodEarly (e : Early) : Bool :=
  okF e.baseline_mean && okF e.latest_mean && okF e.delta

/-- Every float slot of compute_term_comparison's payload (mover deltas and
slopes typed `ℚ` are produced solely from finite values). -/
def GoodTermComp (d : TermCompData) : Bool :=
  d.school_by_term.all GoodSchoolRow &&
  d.subjects_by_term.all (fun s => s.terms.all (fun c => GoodTermCell c.2)) &&
  d.subject_term_matrix.all (fun p => p.2.all (fun q => okF q.2)) &&
  d.students_by_term.all (fun s =>
    okF s.trend_slope && s.terms.all (fun c => GoodStuCell c.2)) &&
  d.class_by_term.all (fun c =>
    c.terms.all (fun q => okF q.2.mean && okF q.2.pass_rate)) &&
  d.exam_timeline.all GoodExamPoint &&
  GoodEarly d.early_performance

/-- Float slots of one gender gap record. -/
def GoodGenderGap (g : GenderGap) : Bool :=
  okF g.male_mean && okF g.female_mean && okF g.gap && okF g.t_statistic &&
  okF g.p_value && okF g.effect_size && okF g.ci_lower && okF g.ci_upper

/-- Float slots of the class gap record. -/
def GoodClassGap (g : ClassGap) : Bool :=
  okF g.best_mean && okF g.worst_mean && okF g.gap && okF g.statistic &&
  okF g.p_value && okF g.effect_size && g.class_means.all (fun p => okF p.2)

/-- Float slots of the regional gap record. -/
def GoodRegionalGap (g : RegionalGap) : Bool :=
  okF g.best_mean && okF g.worst_mean && okF g.gap && okF g.statistic &&
  okF g.p_value && g.region_means.all (fun p => okF p.2)

/-- Float slots of the term gap record. -/
def GoodTermGap (g : TermGap) : Bool :=
  okF g.best_mean && okF g.worst_mean && okF g.gap &&
  g.term_means.all (fun p => okF p.2)

/-- Every float slot of compute_gap_analysis' output. -/
def GoodGapOut (g : GapOut) : Bool :=
  g.gender_gaps.all GoodGenderGap && g.class_gaps.all GoodClassGap &&
  g.regional_gaps.all GoodRegionalGap && g.term_gaps.all GoodTermGap

/-- Float slots of one insight's supporting payload (non-gap payloads carry
only `ℚ`/`ℕ`/strings). -/
def GoodSupporting : Supporting → Bool
  | .gapGender g => GoodGenderGap g
  | .gapClass g => GoodClassGap g
  | .gapRegional g => GoodRegionalGap g
  | .gapTerm g => GoodTermGap g
  | _ => true

/-- Every float slot of generate_all_insights' output. -/
def GoodInsights (i : InsightsOut) : Bool :=
  i.insights.all (fun ins => GoodSupporting ins.supporting)

theorem all_okF_sanSE (x : Option (List SEntry)) :
    ((x.map (List.map sanSE)).getD []).all (fun e => okF e.mean) = true := by
  cases x with
  | none => rfl
  | some l =>
    simp only [Option.map_some', Option.getD_some, List.all_eq_true, List.mem_map]
    rintro e ⟨e₀, -, rfl⟩
    simp [sanSE]

theorem all_okF_sanNM (x : Option (List NamedMean)) :
    ((x.map (List.map sanNM)).getD []).all (fun e => okF e.mean) = true := by
  cases x with
  | none => rfl
  | some l =>
    simp only [Option.map_some', Option.getD_some, List.all_eq_true, List.mem_map]
    rintro e ⟨e₀, -, rfl⟩
    simp [sanNM]

theorem good_sanitizeOverview (v : OverviewOut) :
    GoodOverview (sanitizeOverview v) = true := by
  unfold GoodOverview sanitizeOverview
  simp [all_okF_sanSE, all_okF_sanNM]

/-- compute_overview is fully sanitized. -/
theorem good_overview (o : Oracles) (t : Table) (pm : ℚ) :
    GoodOverview (computeOverview o t pm) = true := by
  unfold computeOverview
  exact good_sanitizeOverview _

theorem good_sanitizeSubjectRow (x : SubjectRow) :
    GoodSubjectRow (sanitizeSubjectRow x) = true := by
  unfold GoodSubjectRow sanitizeSubjectRow
  simp

/-- compute_subject_stats is fully sanitized. -/
theorem good_subject_stats (o : Oracles) (t : Table) (pm : ℚ) :
    GoodSubjectStats (computeSubjectStats o t pm) = true := by
  unfold computeSubjectStats
  split
  · rfl
  · split
    · simp only [GoodSubjectStats, Bool.and_eq_true]
      refine ⟨?_, ?_, ?_⟩
      · simp only [List.all_eq_true, List.mem_map]
        rintro x ⟨x₀, -, rfl⟩
        exact good_sanitizeSubjectRow x₀
      · simp only [List.all_eq_true, List.mem_map]
        rintro p ⟨p₀, -, rfl⟩
        simp [sanitizeCorrPair]
      · simp only [List.all_eq_true, List.mem_map]
        rintro p ⟨p₀, -, rfl⟩
        simp only [List.all_eq_true, List.mem_map]
        rintro q ⟨q₀, -, rfl⟩
        simp
    · simp only [GoodSubjectStats, Bool.and_eq_true]
      refine ⟨?_, trivial⟩
      simp only [List.all_eq_true, List.mem_map]
      rintro x ⟨x₀, -, rfl⟩
      exact good_sanitizeSubjectRow x₀

theorem good_sanitizeProfile (p : Profile) :
    GoodProfile (sanitizeProfile p) = true := by
  unfold GoodProfile sanitizeProfile
  simp only [Bool.and_eq_true]
  refine ⟨⟨⟨⟨by simp, by simp⟩, ?_⟩, ?_⟩, ?_⟩
  · cases p.subject_scores with
    | none => rfl
    | some l =>
      simp only [Option.map_some', Option.getD_some, List.all_eq_true, List.mem_map]
      rintro q ⟨q₀, -, rfl⟩
      simp
  · cases p.term_trends with
    | none => rfl
    | some l =>
      simp only [Option.map_some', Option.getD_some, List.all_eq_true, List.mem_map]
      rintro e ⟨e₀, -, rfl⟩
      simp only [Bool.and_eq_true]
      refine ⟨by simp, ?_⟩
      simp only [List.all_eq_true, List.mem_map]
      rintro q ⟨q₀, -, rfl⟩
      simp
  · simp only [List.all_eq_true, List.mem_map]
    rintro r ⟨r₀, -, rfl⟩
    simp

/-- compute_student_profile is fully sanitized. -/
theorem good_profile (o : Oracles) (t : Table) (sid : String) (pm : ℚ) :
    ∀ p, computeStudentProfile o t sid pm = some p → GoodProfile p = true := by
  intro p hp
  simp only [computeStudentProfile] at hp
  split at hp
  · cases hp
  · split at hp
    · cases hp
    · injection hp with hp
      subst hp
      exact good_sanitizeProfile _

/-- compute_risk_scores is fully sanitized. -/
theorem good_risk (o : Oracles) (t : Table) (pm : ℚ) :
    GoodRiskOut (computeRiskScores o t pm) = true := by
  unfold computeRiskScores
  split
  · rfl
  · simp only [GoodRiskOut, Bool.and_eq_true]
    refine ⟨⟨?_, by simp⟩, ?_⟩
    · simp only [List.all_eq_true, List.mem_map]
      rintro s ⟨s₀, -, rfl⟩
      simp [sanitizeRStudent]
    · split
      · rfl
      · simp

theorem good_analyze_gender_gap (o : Oracles) (rs : List Row) (label : String)
    (g : GenderGap) (h : analyze_gender_gap o rs label = some g) :
    GoodGenderGap g = true := by
  simp only [analyze_gender_gap] at h
  split at h
  · cases h
  · injection h with h
    subst h
    simp [GoodGenderGap]

theorem good_gender_gaps (o : Oracles) (t : Table) :
    ∀ g ∈ compute_gender_gaps o t, GoodGenderGap g = true := by
  intro g h
  simp only [compute_gender_gaps] at h
  split at h
  · simp only [List.mem_append] at h
    rcases h with h | h
    · rw [Option.mem_toList, Option.mem_def] at h
      exact good_analyze_gender_gap o t.rows "Overall" g h
    · split at h
      · obtain ⟨s, -, hmap⟩ := List.mem_filterMap.mp h
        rw [Option.map_eq_some'] at hmap
        obtain ⟨g₀, hg₀, heq⟩ := hmap
        subst heq
        exact good_analyze_gender_gap o _ s g₀ hg₀
      · exact absurd h (List.not_mem_nil g)
  · exact absurd h (List.not_mem_nil g)

theorem good_class_gaps (o : Oracles) (t : Table) :
    ∀ g ∈ compute_class_gaps o t, GoodClassGap g = true := by
  intro g h
  simp only [compute_class_gaps] at h
  split at h
  · split at h
    · exact absurd h (List.not_mem_nil g)
    · split at h
      · exact absurd h (List.not_mem_nil g)
      · simp only [List.mem_singleton] at h
        subst h
        simp only [GoodClassGap, Bool.and_eq_true]
        refine ⟨⟨⟨⟨⟨by simp, by simp⟩, by simp⟩, by simp⟩, by simp⟩, ?_⟩
        simp only [List.all_eq_true, List.mem_map]
        rintro q ⟨q₀, -, rfl⟩
        simp
  · exact absurd h (List.not_mem_nil g)

theorem good_regional_gaps (o : Oracles) (t : Table) :
    ∀ g ∈ compute_regional_gaps o t, GoodRegionalGap g = true := by
  intro g h
  simp only [compute_regional_gaps] at h
  split at h
  · split at h
    · exact absurd h (List.not_mem_nil g)
    · split at h
      · exact absurd h (List.not_mem_nil g)
      · simp only [List.mem_singleton] at h
        subst h
        simp only [GoodRegionalGap, Bool.and_eq_true]
        refine ⟨⟨⟨⟨by simp, by simp⟩, by simp⟩, by simp⟩, ?_⟩
        simp only [List.all_eq_true, List.mem_map]
        rintro q ⟨q₀, -, rfl⟩
        simp
  · exact absurd h (List.not_mem_nil g)

theorem good_term_gaps (t : Table) (l : List TermGap)
    (h : compute_term_gaps t = some l) : ∀ g ∈ l, GoodTermGap g = true := by
  simp only [compute_term_gaps] at h
  split at h
  · split at h
    · injection h with h
      subst h
      intro g hg
      exact absurd hg (List.not_mem_nil g)
    · split at h
      · cases h
      · injection h with h
        subst h
        intro g hg
        simp only [List.mem_singleton] at hg
        subst hg
        simp only [GoodTermGap, Bool.and_eq_true]
        refine ⟨⟨⟨by simp, by simp⟩, by simp⟩, ?_⟩
        simp only [List.all_eq_true, List.mem_map]
        rintro q ⟨q₀, -, rfl⟩
        simp
  · injection h with h
    subst h
    intro g hg
    exact absurd hg (List.not_mem_nil g)

theorem gap_fields_term (o : Oracles) (t : Table) (gd : GapOut)
    (h : compute_gap_analysis o t = some gd) :
    compute_term_gaps t = some gd.term_gaps := by
  unfold compute_gap_analysis at h
  split at h
  · cases h
  · rename_i tg htg
    injection h with h
    subst h
    exact htg

/-- compute_gap_analysis is fully sanitized. -/
theorem good_gap_analysis (o : Oracles) (t : Table) :
    ∀ g, compute_gap_analysis o t = some g → GoodGapOut g = true := by
  intro g hg
  have htg := gap_fields_term o t g hg
  obtain ⟨hgen, hcls, hreg⟩ := gap_fields o t g hg
  simp only [GoodGapOut, Bool.and_eq_true]
  refine ⟨⟨⟨?_, ?_⟩, ?_⟩, ?_⟩ <;> rw [List.all_eq_true]
  · intro x hx
    rw [hgen] at hx
    exact good_gender_gaps o t x hx
  · intro x hx
    rw [hcls] at hx
    exact good_class_gaps o t x hx
  · intro x hx
    rw [hreg] at hx
    exact good_regional_gaps o t x hx
  · intro x hx
    exact good_term_gaps t g.term_gaps htg x hx

theorem headI_mem {α : Type} [Inhabited α] {l : List α} (h : l ≠ []) :
    l.headI ∈ l := by
  cases l with
  | nil => exact absurd rfl h
  | cons a as => exact List.mem_cons_self a as

theorem getLastD_mem {α : Type} : ∀ (l : List α), l ≠ [] → ∀ d, l.getLastD d ∈ l := by
  intro l
  induction l with
  | nil => intro h; exact absurd rfl h
  | cons a as ih =>
    intro _ d
    cases as with
    | nil => simp [List.getLastD]
    | cons b bs =>
      have hstep : (a :: b :: bs).getLastD d = (b :: bs).getLastD a := rfl
      rw [hstep]
      exact List.mem_cons_of_mem a (ih (by simp) a)

theorem good_mkSchoolTermRow (t : Table) (pm : ℚ) (tm : String) :
    GoodSchoolRow (mkSchoolTermRow t pm tm) = true := by
  simp only [mkSchoolTermRow, GoodSchoolRow, Bool.and_eq_true]
  exact ⟨⟨⟨okF_safeFloat2 _, okF_safeFloat2 _⟩, okF_ite (okF_safeFloat2 _) rfl⟩, rfl⟩

theorem good_schoolTrendAt (pv : Option (Option PyF)) (b : SchoolTermRow)
    (hb : GoodSchoolRow b = true) : GoodSchoolRow (schoolTrendAt pv b) = true := by
  simp only [GoodSchoolRow, Bool.and_eq_true] at hb
  obtain ⟨⟨⟨h1, h2⟩, h3⟩, -⟩ := hb
  unfold schoolTrendAt
  cases pv with
  | none =>
    simp only [GoodSchoolRow, Bool.and_eq_true]
    exact ⟨⟨⟨h1, h2⟩, h3⟩, rfl⟩
  | some p =>
    cases p with
    | none =>
      simp only [GoodSchoolRow, Bool.and_eq_true]
      exact ⟨⟨⟨h1, h2⟩, h3⟩, rfl⟩
    | some v =>
      cases v with
      | fin q =>
        cases hm : b.mean with
        | none =>
          simp only [GoodSchoolRow, Bool.and_eq_true]
          exact ⟨⟨⟨hm ▸ h1, h2⟩, h3⟩, rfl⟩
        | some w =>
          cases w <;>
            (simp only [GoodSchoolRow, Bool.and_eq_true]
             exact ⟨⟨⟨hm ▸ h1, h2⟩, h3⟩, rfl⟩)
      | nan =>
        simp only [GoodSchoolRow, Bool.and_eq_true]
        exact ⟨⟨⟨h1, h2⟩, h3⟩, rfl⟩
      | pinf =>
        simp only [GoodSchoolRow, Bool.and_eq_true]
        exact ⟨⟨⟨h1, h2⟩, h3⟩, rfl⟩
      | ninf =>
        simp only [GoodSchoolRow, Bool.and_eq_true]
        exact ⟨⟨⟨h1, h2⟩, h3⟩, rfl⟩

theorem good_schoolByTerm (t : Table) (pm : ℚ) :
    ∀ r ∈ schoolByTerm t pm, GoodSchoolRow r = true := by
  intro r hr
  simp only [schoolByTerm] at hr
  obtain ⟨pr, hpr, rfl⟩ := List.mem_map.mp hr
  have h1 := (List.of_mem_zip hpr).1
  obtain ⟨tm, -, hmk⟩ := List.mem_map.mp h1
  have hg := good_mkSchoolTermRow t pm tm
  rw [hmk] at hg
  exact good_schoolTrendAt _ _ hg

theorem good_mkSubjCell (pm : ℚ) (sdf : List Row) (tm : String) :
    GoodTermCell (mkSubjCell pm sdf tm).2 = true := by
  simp only [mkSubjCell, GoodTermCell, Bool.and_eq_true]
  exact ⟨⟨okF_safeFloat2 _, okF_ite (okF_safeFloat2 _) rfl⟩, rfl⟩

theorem good_cellsWithTrend (base : List (String × TermCell))
    (hb : ∀ c ∈ base, GoodTermCell c.2 = true) :
    ∀ c ∈ cellsWithTrend base, GoodTermCell c.2 = true := by
  intro c hc
  simp only [cellsWithTrend] at hc
  obtain ⟨pr, hpr, rfl⟩ := List.mem_map.mp hc
  have hg := hb _ (List.of_mem_zip hpr).1
  simp only [GoodTermCell, Bool.and_eq_true] at hg ⊢
  exact ⟨⟨hg.1.1, hg.1.2⟩, okF_deltaOf _ _⟩

theorem good_subjectsByTerm (t : Table) (pm : ℚ) :
    ∀ s ∈ subjectsByTerm t pm, ∀ c ∈ s.terms, GoodTermCell c.2 = true := by
  intro s hs
  simp only [subjectsByTerm] at hs
  obtain ⟨subj, -, rfl⟩ := List.mem_map.mp hs
  intro c hc
  refine good_cellsWithTrend _ ?_ c hc
  intro c' hc'
  obtain ⟨tm, -, rfl⟩ := List.mem_map.mp hc'
  exact good_mkSubjCell pm _ tm

theorem good_mkStuCell (pm : ℚ) (stdf : List Row) (tm : String) :
    GoodStuCell (mkStuCell pm stdf tm).2 = true := by
  simp only [mkStuCell, GoodStuCell, Bool.and_eq_true]
  exact ⟨okF_safeFloat2 _, rfl⟩

theorem good_stuCellsWithTrend (base : List (String × StuTermCell))
    (hb : ∀ c ∈ base, GoodStuCell c.2 = true) :
    ∀ c ∈ stuCellsWithTrend base, GoodStuCell c.2 = true := by
  intro c hc
  simp only [stuCellsWithTrend] at hc
  obtain ⟨pr, hpr, rfl⟩ := List.mem_map.mp hc
  have hg := hb _ (List.of_mem_zip hpr).1
  simp only [GoodStuCell, Bool.and_eq_true] at hg ⊢
  exact ⟨hg.1, okF_deltaOf _ _⟩

theorem good_mkStuByTerm (t : Table) (pm : ℚ) (terms : List String) (sid : String) :
    okF (mkStuByTerm t pm terms sid).trend_slope = true ∧
    ∀ c ∈ (mkStuByTerm t pm terms sid).terms, GoodStuCell c.2 = true := by
  constructor
  · simp only [mkStuByTerm]
    split
    · rfl
    · rfl
  · intro c hc
    simp only [mkStuByTerm] at hc
    refine good_stuCellsWithTrend _ ?_ c hc
    intro c' hc'
    obtain ⟨tm, -, rfl⟩ := List.mem_map.mp hc'
    exact good_mkStuCell pm _ tm

theorem good_studentsByTerm (t : Table) (pm : ℚ) :
    ∀ s ∈ studentsByTerm t pm,
      okF s.trend_slope = true ∧ ∀ c ∈ s.terms, GoodStuCell c.2 = true := by
  intro s hs
  simp only [studentsByTerm] at hs
  obtain ⟨pr, hpr, rfl⟩ := List.mem_map.mp hs
  have h1 := (List.of_mem_zip hpr).1
  have h2 : pr.1 ∈ (uniq (t.rows.filterMap (studentCell t))).map
      (mkStuByTerm t pm (sortedTermList t)) := by
    cases hl : (sortedTermList t).getLast? with
    | none =>
      rw [hl] at h1
      exact h1
    | some last =>
      rw [hl] at h1
      exact (List.perm_insertionSort _ _).mem_iff.mp h1
  obtain ⟨sid, -, hmk⟩ := List.mem_map.mp h2
  have hg := good_mkStuByTerm t pm (sortedTermList t) sid
  rw [hmk] at hg
  exact ⟨hg.1, hg.2⟩

theorem good_classByTerm (t : Table) (pm : ℚ) :
    ∀ cb ∈ classByTerm t pm,
      ∀ q ∈ cb.terms, okF q.2.mean = true ∧ okF q.2.pass_rate = true := by
  intro cb hcb
  simp only [classByTerm] at hcb
  obtain ⟨c, -, rfl⟩ := List.mem_map.mp hcb
  intro q hq
  obtain ⟨tm, -, rfl⟩ := List.mem_map.mp hq
  exact ⟨okF_safeFloat2 _, okF_ite (okF_safeFloat2 _) rfl⟩

theorem good_mkExamPoint (t : Table) (pm : ℚ) (tm ex : String) :
    GoodExamPoint (mkExamPoint t pm tm ex) = true := by
  simp only [mkExamPoint, GoodExamPoint, Bool.and_eq_true]
  exact ⟨⟨okF_safeFloat2 _, okF_ite (okF_safeFloat2 _) rfl⟩, rfl⟩

theorem good_examTrendAt (pv : Option (Option PyF)) (p : ExamPoint)
    (hp : GoodExamPoint p = true) : GoodExamPoint (examTrendAt pv p) = true := by
  simp only [GoodExamPoint, Bool.and_eq_true] at hp
  obtain ⟨⟨h1, h2⟩, -⟩ := hp
  unfold examTrendAt
  cases pv with
  | none =>
    simp only [GoodExamPoint, Bool.and_eq_true]
    exact ⟨⟨h1, h2⟩, rfl⟩
  | some pv' =>
    cases pv' with
    | none =>
      simp only [GoodExamPoint, Bool.and_eq_true]
      exact ⟨⟨h1, h2⟩, rfl⟩
    | some v =>
      cases v with
      | fin q =>
        cases hm : p.mean with
        | none =>
          simp only [GoodExamPoint, Bool.and_eq_true]
          exact ⟨⟨hm ▸ h1, h2⟩, rfl⟩
        | some w =>
          cases w <;>
            (simp only [GoodExamPoint, Bool.and_eq_true]
             exact ⟨⟨hm ▸ h1, h2⟩, rfl⟩)
      | nan =>
        simp only [GoodExamPoint, Bool.and_eq_true]
        exact ⟨⟨h1, h2⟩, rfl⟩
      | pinf =>
        simp only [GoodExamPoint, Bool.and_eq_true]
        exact ⟨⟨h1, h2⟩, rfl⟩
      | ninf =>
        simp only [GoodExamPoint, Bool.and_eq_true]
        exact ⟨⟨h1, h2⟩, rfl⟩

theorem good_examTimeline (t : Table) (pm : ℚ) :
    ∀ p ∈ examTimeline t pm, GoodExamPoint p = true := by
  intro p hp
  simp only [examTimeline] at hp
  split at hp
  · obtain ⟨pr, hpr, rfl⟩ := List.mem_map.mp hp
    have h1 := (List.of_mem_zip hpr).1
    obtain ⟨tm, -, h2⟩ := List.mem_flatMap.mp h1
    obtain ⟨ex, -, hmk⟩ := List.mem_map.mp h2
    have hg := good_mkExamPoint t pm tm ex
    rw [hmk] at hg
    exact good_examTrendAt _ _ hg
  · exact absurd hp (List.not_mem_nil p)

theorem good_earlyFromPoints (bl : String) (bm : Option PyF) (ll : String)
    (lm : Option PyF) (h1 : okF bm = true) (h2 : okF lm = true) :
    GoodEarly (earlyFromPoints bl bm ll lm) = true := by
  simp only [earlyFromPoints, GoodEarly, Bool.and_eq_true]
  refine ⟨⟨h1, h2⟩, ?_⟩
  cases bm with
  | none => rfl
  | some v =>
    cases v with
    | fin q =>
      cases lm with
      | none => rfl
      | some w => cases w <;> rfl
    | nan => rfl
    | pinf => rfl
    | ninf => rfl

theorem good_earlyPerformance (t : Table) (pm : ℚ) :
    GoodEarly (earlyPerformance t pm) = true := by
  simp only [earlyPerformance]
  split
  · rename_i h2
    have hne : examTimeline t pm ≠ [] := by
      intro he
      rw [he] at h2
      simp at h2
    have hh := good_examTimeline t pm _ (headI_mem hne)
    have hl := good_examTimeline t pm _
      (getLastD_mem _ hne ((examTimeline t pm).headI))
    simp only [GoodExamPoint, Bool.and_eq_true] at hh hl
    exact good_earlyFromPoints _ _ _ _ hh.1.1 hl.1.1
  · split
    · rename_i h2
      have hne : schoolByTerm t pm ≠ [] := by
        intro he
        rw [he] at h2
        simp at h2
      have hh := good_schoolByTerm t pm _ (headI_mem hne)
      have hl := good_schoolByTerm t pm _
        (getLastD_mem _ hne ((schoolByTerm t pm).headI))
      simp only [GoodSchoolRow, Bool.and_eq_true] at hh hl
      exact good_earlyFromPoints _ _ _ _ hh.1.1.1 hl.1.1.1
    · rfl

/-- compute_term_comparison is fully sanitized. -/
theorem good_term_comparison (o : Oracles) (t : Table) (pm : ℚ) :
    ∀ d, computeTermComparison o t pm = .ok d → GoodTermComp d = true := by
  intro d hd
  simp only [computeTermComparison] at hd
  split at hd
  · cases hd
  · injection hd with hd
    subst hd
    simp only [GoodTermComp, Bool.and_eq_true]
    refine ⟨⟨⟨⟨⟨⟨?_, ?_⟩, ?_⟩, ?_⟩, ?_⟩, ?_⟩, ?_⟩
    · rw [List.all_eq_true]
      intro r hr
      exact good_schoolByTerm _ pm r hr
    · split
      · rw [List.all_eq_true]
        intro s hs
        rw [List.all_eq_true]
        intro c hc
        exact good_subjectsByTerm _ pm s hs c hc
      · rfl
    · split
      · rw [List.all_eq_true]
        rintro p hp
        obtain ⟨row, hrow, rfl⟩ := List.mem_map.mp hp
        rw [List.all_eq_true]
        rintro q hq
        obtain ⟨c, hc, rfl⟩ := List.mem_map.mp hq
        have := good_subjectsByTerm _ pm row hrow c hc
        simp only [GoodTermCell, Bool.and_eq_true] at this
        exact this.1.1
      · rfl
    · split
      · rw [List.all_eq_true]
        intro s hs
        rw [Bool.and_eq_true]
        refine ⟨(good_studentsByTerm _ pm s hs).1, ?_⟩
        rw [List.all_eq_true]
        intro c hc
        exact (good_studentsByTerm _ pm s hs).2 c hc
      · rfl
    · split
      · rw [List.all_eq_true]
        intro cb hcb
        rw [List.all_eq_true]
        intro q hq
        have := good_classByTerm _ pm cb hcb q hq
        rw [Bool.and_eq_true]
        exact this
      · rfl
    · rw [List.all_eq_true]
      intro p hp
      exact good_examTimeline _ pm p hp
    · exact good_earlyPerformance _ pm

theorem goodSupp_performance (ov : OverviewOut) (ss : SubjectStatsOut) (pm : ℚ)
    (ins : Insight) (h : ins ∈ performance_insights ov ss pm) :
    GoodSupporting ins.supporting = true := by
  simp only [performance_insights, List.mem_append] at h
  rcases h with (((h | h) | h) | h)
  · split at h <;> (simp only [List.mem_singleton] at h; subst h; rfl)
  · split at h
    · simp only [List.mem_singleton] at h
      subst h
      rfl
    · exact absurd h (List.not_mem_nil ins)
  · split at h
    · split at h
      · simp only [List.mem_singleton] at h
        subst h
        rfl
      · exact absurd h (List.not_mem_nil ins)
    · exact absurd h (List.not_mem_nil ins)
  · obtain ⟨subj, -, hins⟩ := List.mem_filterMap.mp h
    try dsimp only at hins
    split at hins
    · injection hins with hins
      subst hins
      rfl
    · cases hins

theorem goodSupp_gap (o : Oracles) (t : Table) (gd : GapOut)
    (hga : compute_gap_analysis o t = some gd) (ins : Insight)
    (h : ins ∈ gap_insights gd) : GoodSupporting ins.supporting = true := by
  obtain ⟨hgen, hcls, hreg⟩ := gap_fields o t gd hga
  have htg := gap_fields_term o t gd hga
  simp only [gap_insights, List.mem_append] at h
  rcases h with (((h | h) | h) | h)
  · obtain ⟨g, hgm, hmap⟩ := List.mem_filterMap.mp h
    try dsimp only at hmap
    split at hmap
    · injection hmap with hmap
      subst hmap
      rw [hgen] at hgm
      exact good_gender_gaps o t g hgm
    · cases hmap
  · obtain ⟨g, hgm, hmap⟩ := List.mem_filterMap.mp h
    try dsimp only at hmap
    split at hmap
    · injection hmap with hmap
      subst hmap
      rw [hcls] at hgm
      exact good_class_gaps o t g hgm
    · cases hmap
  · obtain ⟨g, hgm, hmap⟩ := List.mem_filterMap.mp h
    try dsimp only at hmap
    split at hmap
    · injection hmap with hmap
      subst hmap
      rw [hreg] at hgm
      exact good_regional_gaps o t g hgm
    · cases hmap
  · obtain ⟨g, hgm, hmap⟩ := List.mem_filterMap.mp h
    try dsimp only at hmap
    split at hmap
    · injection hmap with hmap
      subst hmap
      exact good_term_gaps t gd.term_gaps htg g hgm
    · cases hmap

theorem goodSupp_at_risk (rd : RiskOut) (t : Table) (ins : Insight)
    (h : ins ∈ at_risk_insights rd t) : GoodSupporting ins.supporting = true := by
  cases rd with
  | noStudentCol => simp [at_risk_insights] at h
  | ok students sm =>
    simp only [at_risk_insights] at h
    split at h
    · exact absurd h (List.not_mem_nil ins)
    · simp only [List.mem_append] at h
      rcases h with h | h
      · split at h
        · simp only [List.mem_singleton] at h
          subst h
          rfl
        · exact absurd h (List.not_mem_nil ins)
      · split at h
        · obtain ⟨c, -, hmap⟩ := List.mem_filterMap.mp h
          try dsimp only at hmap
          split at hmap
          · injection hmap with hmap
            subst hmap
            rfl
          · cases hmap
        · exact absurd h (List.not_mem_nil ins)

theorem goodSupp_positive (ov : OverviewOut) (ss : SubjectStatsOut) (t : Table)
    (ins : Insight) (h : ins ∈ positive_insights ov ss t) :
    GoodSupporting ins.supporting = true := by
  simp only [positive_insights, List.mem_append] at h
  rcases h with (((h | h) | h) | h)
  · obtain ⟨x, -, hins⟩ := List.mem_filterMap.mp h
    try dsimp only at hins
    split at hins
    · injection hins with hins
      subst hins
      rfl
    · cases hins
  · split at h
    · obtain ⟨sid, -, hins⟩ := List.mem_filterMap.mp h
      try dsimp only at hins
      split at hins
      · split at hins
        · injection hins with hins
          subst hins
          rfl
        · cases hins
      · cases hins
    · exact absurd h (List.not_mem_nil ins)
  · obtain ⟨x, -, hins⟩ := List.mem_filterMap.mp h
    try dsimp only at hins
    split at hins
    · injection hins with hins
      subst hins
      rfl
    · cases hins
  · split at h
    · split at h
      · simp only [List.mem_singleton] at h
        subst h
        rfl
      · exact absurd h (List.not_mem_nil ins)
    · exact absurd h (List.not_mem_nil ins)

theorem goodSupp_corr (ss : SubjectStatsOut) (ins : Insight)
    (h : ins ∈ correlation_insights ss) : GoodSupporting ins.supporting = true := by
  simp only [correlation_insights] at h
  obtain ⟨pair, -, hins⟩ := List.mem_filterMap.mp h
  try dsimp only at hins
  split at hins
  · injection hins with hins
    subst hins
    rfl
  · cases hins

/-- generate_all_insights is fully sanitized. -/
theorem good_insights (o : Oracles) (t : Table) (pm : ℚ) :
    ∀ i, generate_all_insights o t pm = some i → GoodInsights i = true := by
  intro i hi
  unfold generate_all_insights at hi
  cases hga : compute_gap_analysis o t with
  | none =>
    rw [hga] at hi
    cases hi
  | some gd =>
    simp only [hga] at hi
    injection hi with hi
    subst hi
    simp only [GoodInsights]
    rw [List.all_eq_true]
    intro ins hins
    have hmem := (List.perm_insertionSort
      (fun a b : Insight => sevOrd a.severity ≤ sevOrd b.severity) _).mem_iff.mp hins
    simp only [List.mem_append] at hmem
    rcases hmem with ((((h | h) | h) | h) | h)
    · exact goodSupp_performance _ _ pm ins h
    · exact goodSupp_gap o t gd hga ins h
    · exact goodSupp_at_risk _ t ins h
    · exact goodSupp_positive _ _ t ins h
    · exact goodSupp_corr _ ins h

/-- C4: every public entry point's output is NaN/Infinity-free — each
nullable float slot is null or finite (computed structures only: the
term-gap IndexError path and the no-term-column error dict carry no floats)
— and a found student with zero valid scores gets a null overall_mean. -/
theorem sanitize_spec (o : Oracles) (t : Table) (pm : ℚ) (sid : String) :
    GoodOverview (computeOverview o t pm) = true ∧
    GoodSubjectStats (computeSubjectStats o t pm) = true ∧
    (∀ p, computeStudentProfile o t sid pm = some p → GoodProfile p = true) ∧
    (∀ d, computeTermComparison o t pm = .ok d → GoodTermComp d = true) ∧
    GoodRiskOut (computeRiskScores o t pm) = true ∧
    (∀ g, compute_gap_analysis o t = some g → GoodGapOut g = true) ∧
    (∀ i, generate_all_insights o t pm = some i → GoodInsights i = true) ∧
    (∀ p, computeStudentProfile o t sid pm = some p →
      rowsPct (t.rows.filter (fun r => rowKeyStr t r = sid)) = [] →
      p.overall_mean = none) := by
  refine ⟨good_overview o t pm, good_subject_stats o t pm, good_profile o t sid pm,
    good_term_comparison o t pm, good_risk o t pm, good_gap_analysis o t,
    good_insights o t pm, ?_⟩
  intro p hp hz
  simp only [computeStudentProfile] at hp
  split at hp
  · cases hp
  · split at hp
    · cases hp
    · injection hp with hp
      subst hp
      simp only [sanitizeProfile, hz]
      rfl

instance : Inhabited Profile :=
  ⟨⟨"", "", none, none, none, none, none, 0, 0, none, none, none, none, none,
    none, []⟩⟩

instance : Inhabited GapOut := ⟨⟨[], [], [], []⟩⟩

/-- The profile computed for "S1" on `tableC2`. -/
def c4Profile : Profile := (computeStudentProfile oracle0 tableC2 "S1" 50).getD default

/-- The term-comparison payload computed on `tableC2`. -/
def c4Data : TermCompData :=
  match computeTermComparison oracle0 tableC2 50 with
  | .ok d => d
  | .err => default

/-- The gap analysis computed on `tableC2`. -/
def c4Gaps : GapOut := (compute_gap_analysis oracle0 tableC2).getD default

/-- The insights computed on `tableC2`. -/
def c4Ins : InsightsOut :=
  match generate_all_insights oracle0 tableC2 50 with
  | some x => x
  | none => default

/-- The profile of "S3" on `tableC10` — a found student with no valid score. -/
def c4ProfileZ : Profile :=
  (computeStudentProfile oracle0 tableC10 "S3" 50).getD default

/-- C4 witness: the sanitization predicates hold on the concrete outputs for
`tableC2`, and the zero-valid-scores student "S3" of `tableC10` gets a null
overall_mean. -/
theorem sanitize_spec_witness :
    GoodOverview (computeOverview oracle0 tableC2 50) = true ∧
    GoodSubjectStats (computeSubjectStats oracle0 tableC2 50) = true ∧
    GoodProfile c4Profile = true ∧
    GoodTermComp c4Data = true ∧
    GoodRiskOut (computeRiskScores oracle0 tableC2 50) = true ∧
    GoodGapOut c4Gaps = true ∧
    GoodInsights c4Ins = true ∧
    c4ProfileZ.overall_mean = none :=
  ⟨(sanitize_spec oracle0 tableC2 50 "S1").1,
   (sanitize_spec oracle0 tableC2 50 "S1").2.1,
   (sanitize_spec oracle0 tableC2 50 "S1").2.2.1 c4Profile
     (by with_unfolding_all decide),
   (sanitize_spec oracle0 tableC2 50 "S1").2.2.2.1 c4Data
     (by with_unfolding_all decide),
   (sanitize_spec oracle0 tableC2 50 "S1").2.2.2.2.1,
   (sanitize_spec oracle0 tableC2 50 "S1").2.2.2.2.2.1 c4Gaps
     (by with_unfolding_all decide),
   (sanitize_spec oracle0 tableC2 50 "S1").2.2.2.2.2.2.1 c4Ins
     (by with_unfolding_all decide),
   (sanitize_spec oracle0 tableC10 50 "S3").2.2.2.2.2.2.2 c4ProfileZ
     (by with_unfolding_all decide) (by with_unfolding_all decide)⟩
